import Mathlib

/-!
# Backup session controller (pkg/backup/backup.go)

A shallow embedding of `Controller.Backup`, `Controller.setup`,
`Controller.runResticBackup`, `Controller.measure` and
`Controller.ensureCheckRBAC`.

The controller is sequential code around fallible external calls (the restic
wrapper, the cluster API, the push gateway).  The embedding passes the state
explicitly:

* `Env` holds what every external call answers during one run;
* `World` holds the cluster objects the controller writes and a chronological
  log of the observable effects (archiving calls, events, metric pushes,
  status patches, job creation calls);
* a Go `error` is `Option Error` (`none` is `nil`).
-/

namespace Stash

/-! ## Data model -/

/-- A Go error value, identified with its message. -/
abbrev Error := String

/-- A point in time (metav1.Time), in nanoseconds. -/
abbrev Time := Int

/-- The least value of a signed 64-bit integer. -/
def minInt64 : Int := -9223372036854775808

/-- The greatest value of a signed 64-bit integer. -/
def maxInt64 : Int := 9223372036854775807

/-- The value of a signed 64-bit integer after an operation whose exact result is
`x`: Go wraps around on overflow. -/
def wrapInt64 (x : Int) : Int :=
  (x + 9223372036854775808) % 18446744073709551616 - 9223372036854775808

/-- One entry of `Spec.FileGroups`: a path and its retention rule. -/
structure FileGroup where
  Path : String
  RetentionPolicyName : String
  deriving DecidableEq, Repr

/-- The storage backend descriptor, as far as `setup` reads it. -/
structure Backend where
  StorageSecretName : String
  deriving DecidableEq, Repr

structure ResticSpec where
  FileGroups : List FileGroup
  Backend : Backend
  Paused : Bool
  deriving DecidableEq, Repr

/-- Modelled from the spec: the declaration of `api.ResticStatus` is not part of
the sources at hand.  The spec's SessionStatus is a success counter, a
first-success timestamp, a last-success timestamp and the last session
duration; the field names are the ones `runResticBackup` writes.  The counter is
incremented with `++`, so it is a fixed-width Go integer: a signed 64-bit one
(`int64`), kept here as an integer between `minInt64` and `maxInt64`.  The two
timestamps are pointers in the code (`nil` is `none`). -/
structure ResticStatus where
  BackupCount : Int
  FirstBackupTime : Option Time
  LastBackupTime : Option Time
  LastBackupDuration : String
  deriving DecidableEq, Repr

/-- The backup resource (`api.Restic`). -/
structure Restic where
  Name : String
  Namespace : String
  UID : String
  Spec : ResticSpec
  Status : ResticStatus
  deriving DecidableEq, Repr

/-- A `core.ObjectReference`. -/
structure ObjectReference where
  APIVersion : String
  Kind : String
  Namespace : String
  Name : String
  UID : String
  deriving DecidableEq, Repr

/-- Modelled from the spec: `Restic.ObjectReference` is declared outside the
sources at hand; events are attached to the originating resource's object
reference, which names the resource by kind, namespace, name and uid. -/
def Restic.ObjectReference (r : Restic) : ObjectReference :=
  { APIVersion := "stash.appscode.com/v1alpha1", Kind := "Restic",
    Namespace := r.Namespace, Name := r.Name, UID := r.UID }

/-- Severity of an event (`core.EventTypeNormal`, `core.EventTypeWarning`). -/
inductive EventType where
  | Normal
  | Warning
  deriving DecidableEq, Repr

/-- The reason codes of package `eventer` used by the backup controller. -/
inductive EventReason where
  | FailedSetup
  | FailedToBackup
  | SuccessfulBackup
  | FailedToRetention
  | FailedCronJob
  | CheckJobCreated
  deriving DecidableEq, Repr

/-- A structured event: (component, object reference, severity, reason, message). -/
structure Event where
  component : String
  ref : ObjectReference
  type : EventType
  reason : EventReason
  message : String
  deriving DecidableEq, Repr

def BackupEventComponent : String := "stash-backup"

def CheckRole : String := "stash-check"

/-- The image of the check job (`docker.Docker`). -/
structure Docker where
  Registry : String
  Image : String
  Tag : String
  deriving DecidableEq, Repr

/-- An owner reference of an object (`metav1.OwnerReference`). -/
structure OwnerReference where
  APIVersion : String
  Kind : String
  Name : String
  UID : String
  deriving DecidableEq, Repr

/-- Object metadata.  `Labels` is a Go map: `none` is the nil map, and a map is
a list of key/value pairs with distinct keys. -/
structure ObjectMeta where
  Name : String
  Namespace : String
  UID : String
  Labels : Option (List (String × String))
  OwnerReferences : List OwnerReference
  deriving DecidableEq, Repr

/-- The check job, as far as `Backup` reads and writes it. -/
structure Job where
  ObjectMeta : ObjectMeta
  ServiceAccountName : String
  Image : Docker
  deriving DecidableEq, Repr

structure ServiceAccount where
  ObjectMeta : ObjectMeta
  Secrets : List String
  deriving DecidableEq, Repr

structure RoleRef where
  APIGroup : String
  Kind : String
  Name : String
  deriving DecidableEq, Repr

structure Subject where
  Kind : String
  Name : String
  Namespace : String
  deriving DecidableEq, Repr

structure RoleBinding where
  ObjectMeta : ObjectMeta
  RoleRef : RoleRef
  Subjects : List Subject
  deriving DecidableEq, Repr

/-- What `push.Collectors` sends: the three session gauges and the labelled
per-(file group, operation) duration vector. -/
structure MetricsPush where
  url : String
  success : Nat
  fail : Nat
  durationTotal : Int
  durations : List ((String × String) × Int)
  deriving DecidableEq, Repr

/-- The observable effects of a run, in the order they happen.  A status patch is
recorded with the resource and the mutator handed to `PatchRestic`. -/
inductive Effect where
  | backup (fg : FileGroup)
  | forget (fg : FileGroup)
  | event (e : Event)
  | push (m : MetricsPush)
  | patchRestic (cur : Restic) (transform : Restic → Restic)
  | createJob (j : Job)

/-- The cluster objects the controller writes, and the log of effects. -/
structure World where
  restic : Option Restic
  jobs : List Job
  serviceAccounts : List ServiceAccount
  roleBindings : List RoleBinding
  log : List Effect

/-- The options of the controller that the modelled functions read. -/
structure Options where
  Namespace : String
  ResticName : String
  ScratchDir : String
  PushgatewayURL : String
  SmartPrefix : String
  SnapshotHostname : String
  DockerRegistry : String
  ImageTag : String
  EnableRBAC : Bool

/-- The answers of the external collaborators during one run.  File groups are
visited at most once per run, so the answer of an archiving call is given per
position of the file group in `Spec.FileGroups`. -/
structure Env where
  /-- The answer of `os.MkdirAll` on the scratch directory. -/
  mkdirAll : Option Error
  /-- The answer of `ioutil.WriteFile` of the probe file. -/
  writeFile : Option Error
  /-- Failure of the `Get` of the backup resource other than its absence. -/
  getResticErr : Option Error
  /-- The function `resource.IsValid()`, declared outside the sources at hand. -/
  isValid : Restic → Option Error
  /-- The answer of `Get` of the storage secret (namespace, name). -/
  getSecret : String → String → Except Error String
  /-- The answer of `resticCLI.SetupEnv`. -/
  setupEnv : Backend → String → String → Option Error
  /-- The answer of `resticCLI.InitRepositoryIfAbsent`. -/
  initRepository : Option Error
  /-- The two readings of `metav1.Now()` in `runResticBackup`. -/
  startTime : Time
  endTime : Time
  /-- The function `Duration.String()` of `endTime.Sub(startTime.Time)`. -/
  durationString : Int → String
  /-- The answer of `os.Hostname()`. -/
  hostname : String
  /-- The function `sanitizeLabelValue`, declared outside the sources at hand. -/
  sanitizeLabelValue : String → String
  /-- The answer of `resticCLI.Backup` on the file group at a position. -/
  backupErr : Nat → Option Error
  /-- The answer of `resticCLI.Forget` on the file group at a position. -/
  forgetErr : Nat → Option Error
  /-- Elapsed time measured around the backup and the forget call of a position. -/
  backupElapsed : Nat → Int
  forgetElapsed : Nat → Int
  /-- The function `util.NewCheckJob`, declared outside the sources at hand. -/
  newCheckJob : Restic → String → String → Docker → Job
  /-- The answer of `Jobs(namespace).Create(job)`: the created job, or an error. -/
  createJob : Job → Except Error Job
  /-- The answer of `reference.GetReference(scheme.Scheme, job)`. -/
  getReference : Job → Except Error ObjectReference
  /-- Failure of the API calls behind `CreateOrPatchServiceAccount`. -/
  serviceAccountErr : Option Error
  /-- Failure of the API calls behind `CreateOrPatchRoleBinding`. -/
  roleBindingErr : Option Error
  /-- The function `core_util.EnsureOwnerReference`, a function of an external library. -/
  ensureOwnerReference : ObjectMeta → ObjectReference → ObjectMeta
  /-- The constant `controller.SidecarClusterRole`, declared outside the sources at hand. -/
  sidecarClusterRole : String

/-! ## Effects -/

def World.record (w : World) (e : Effect) : World :=
  { w with log := w.log ++ [e] }

/-- Modelled from the spec: `eventer.CreateEventWithLog` is declared outside the
sources at hand; it produces one structured (object-reference, severity,
reason-code, message) tuple on the event stream. -/
def CreateEventWithLog (w : World) (component : String) (ref : ObjectReference)
    (type : EventType) (reason : EventReason) (message : String) : World :=
  w.record (.event { component := component, ref := ref, type := type,
                     reason := reason, message := message })

/-- Modelled from the spec: `stash_util.PatchRestic` is declared outside the
sources at hand; it is the cluster API's patch-status with a mutator function:
the stored resource becomes the mutator's image of the resource passed in.  The
caller discards what it returns. -/
def PatchRestic (w : World) (cur : Restic) (transform : Restic → Restic) : World :=
  { w with restic := some (transform cur),
           log := w.log ++ [.patchRestic cur transform] }

/-- The events of a log, in order. -/
def eventsOf : List Effect → List Event
  | [] => []
  | .event e :: l => e :: eventsOf l
  | _ :: l => eventsOf l

/-- The archiving calls of a log, in order. -/
def archiveCallsOf : List Effect → List Effect
  | [] => []
  | .backup fg :: l => .backup fg :: archiveCallsOf l
  | .forget fg :: l => .forget fg :: archiveCallsOf l
  | _ :: l => archiveCallsOf l

/-- The status patches of a log, in order, as (resource passed in, result). -/
def patchesOf : List Effect → List (Restic × Restic)
  | [] => []
  | .patchRestic c t :: l => (c, t c) :: patchesOf l
  | _ :: l => patchesOf l

/-- The mutators handed to `PatchRestic` in a log, in order. -/
def mutatorsOf : List Effect → List (Restic → Restic)
  | [] => []
  | .patchRestic _ t :: l => t :: mutatorsOf l
  | _ :: l => mutatorsOf l

/-- The metric pushes of a log, in order. -/
def pushesOf : List Effect → List MetricsPush
  | [] => []
  | .push m :: l => m :: pushesOf l
  | _ :: l => pushesOf l

/-- The job creation calls of a log, in order. -/
def createJobCallsOf : List Effect → List Job
  | [] => []
  | .createJob j :: l => j :: createJobCallsOf l
  | _ :: l => createJobCallsOf l

/-! ## runResticBackup -/

/-- Assignment `m[key] = v` on a Go map kept as a list of pairs with distinct
keys; also `Set` on the child of a label pair in a labelled gauge vector. -/
def mapSet {κ ν : Type} [DecidableEq κ] (m : List (κ × ν)) (key : κ) (v : ν) : List (κ × ν) :=
  match m with
  | [] => [(key, v)]
  | (k, x) :: rest => if k = key then (k, v) :: rest else (k, x) :: mapSet rest key v

/-- The local state of `runResticBackup` while the file groups are visited. -/
structure Session where
  world : World
  gauges : List ((String × String) × Int)

/-- The call `resticCLI.Backup` on the file group at position `k`. -/
def resticBackup (env : Env) (k : Nat) (fg : FileGroup) (w : World) : Option Error × World :=
  (env.backupErr k, w.record (.backup fg))

/-- The call `resticCLI.Forget` on the file group at position `k`. -/
def resticForget (env : Env) (k : Nat) (fg : FileGroup) (w : World) : Option Error × World :=
  (env.forgetErr k, w.record (.forget fg))

/-- The method `Controller.measure`: run `f`, then (deferred) set the gauge to the elapsed
time; the error of `f` is returned. -/
def measure (f : World → Option Error × World) (elapsed : Int) (g : String × String)
    (s : Session) : Option Error × Session :=
  let r := f s.world
  (r.1, { world := r.2, gauges := mapSet s.gauges g elapsed })

/-- The loop of `runResticBackup` over `Spec.FileGroups`, from position `k`. -/
def runFileGroups (env : Env) (resource : Restic) :
    Nat → List FileGroup → Session → Option Error × Session
  | _, [], s => (none, s)
  | k, fg :: rest, s =>
    let b := measure (resticBackup env k fg) (env.backupElapsed k)
               (env.sanitizeLabelValue fg.Path, "backup") s
    match b.1 with
    | some err =>
      let w := CreateEventWithLog b.2.world BackupEventComponent resource.ObjectReference
                 .Warning .FailedToBackup ("Backup failed, reason: " ++ err)
      (some err, { b.2 with world := w })
    | none =>
      let w := CreateEventWithLog b.2.world BackupEventComponent resource.ObjectReference
                 .Normal .SuccessfulBackup
                 ("Backed up pod: " ++ env.hostname ++ ", path: " ++ fg.Path)
      let f := measure (resticForget env k fg) (env.forgetElapsed k)
                 (env.sanitizeLabelValue fg.Path, "forget") { b.2 with world := w }
      match f.1 with
      | some err =>
        let w := CreateEventWithLog f.2.world BackupEventComponent resource.ObjectReference
                   .Warning .FailedToRetention
                   ("Failed to forget old snapshots, reason: " ++ err)
        (some err, { f.2 with world := w })
      | none => runFileGroups env resource (k + 1) rest f.2

/-- The mutator `runResticBackup` hands to `PatchRestic`. -/
def statusMutator (startTime : Time) (duration : String) (r : Restic) : Restic :=
  let st := r.Status
  let st := { st with BackupCount := wrapInt64 (st.BackupCount + 1) }
  let st := { st with LastBackupTime := some startTime }
  let st := if st.FirstBackupTime = none then ({ st with FirstBackupTime := some startTime }) else st
  let st := { st with LastBackupDuration := duration }
  { r with Status := st }

/-- The deferred function of `runResticBackup`. -/
def runDeferred (env : Env) (opt : Options) (resource : Restic) (err : Option Error)
    (s : Session) : World :=
  let w :=
    if opt.PushgatewayURL ≠ "" then
      s.world.record (.push
        { url := opt.PushgatewayURL,
          success := if err.isSome then 0 else 1,
          fail := if err.isSome then 1 else 0,
          durationTotal := env.endTime - env.startTime,
          durations := s.gauges })
    else s.world
  if err = none then
    PatchRestic w resource
      (statusMutator env.startTime (env.durationString (env.endTime - env.startTime)))
  else w

/-- The method `Controller.runResticBackup`. -/
def runResticBackup (env : Env) (opt : Options) (resource : Restic) (w : World) :
    Option Error × World :=
  if resource.Spec.Paused = true then (none, w)
  else
    let r := runFileGroups env resource 0 resource.Spec.FileGroups { world := w, gauges := [] }
    (r.1, runDeferred env opt resource r.1 r.2)

/-! ## setup -/

/-- The `Get` of the backup resource by name: the stored object, or an error
when the call fails or the object is absent. -/
def getRestic (env : Env) (opt : Options) (w : World) : Except Error Restic :=
  match env.getResticErr with
  | some err => .error err
  | none =>
    match w.restic with
    | some r => .ok r
    | none => .error ("restics.stash.appscode.com \"" ++ opt.ResticName ++ "\" not found")

/-- The method `Controller.setup`: the pair (resource, error) it returns. -/
def setup (env : Env) (opt : Options) (w : World) : Option Restic × Option Error :=
  match env.mkdirAll with
  | some err => (none, some ("failed to create scratch dir: " ++ err))
  | none =>
    match env.writeFile with
    | some err => (none, some ("no write access in scratch dir: " ++ err))
    | none =>
      match getRestic env opt w with
      | .error err => (none, some err)
      | .ok resource =>
        match env.isValid resource with
        | some err => (some resource, some err)
        | none =>
          match env.getSecret resource.Namespace resource.Spec.Backend.StorageSecretName with
          | .error err => (some resource, some err)
          | .ok secret =>
            match env.setupEnv resource.Spec.Backend secret opt.SmartPrefix with
            | some err => (some resource, some err)
            | none =>
              match env.initRepository with
              | some err => (some resource, some err)
              | none => (some resource, none)

/-! ## ensureCheckRBAC -/

/-- The cluster API's create-or-patch on a list of stored objects (the external
helpers `CreateOrPatchServiceAccount` and `CreateOrPatchRoleBinding`): the
first object with the wanted name is replaced by its image under `transform`;
when there is none, the image of the fresh object is created. -/
def createOrPatch {α : Type} (isNamed : α → Bool) (fresh : α) (transform : α → α) :
    List α → List α
  | [] => [transform fresh]
  | x :: rest =>
    if isNamed x then transform x :: rest
    else x :: createOrPatch isNamed fresh transform rest

def ObjectMeta.isNamed (meta m : ObjectMeta) : Bool :=
  decide (m.Namespace = meta.Namespace ∧ m.Name = meta.Name)

def CreateOrPatchServiceAccount (apiErr : Option Error) (w : World) (meta : ObjectMeta)
    (transform : ServiceAccount → ServiceAccount) : Option Error × World :=
  match apiErr with
  | some err => (some err, w)
  | none =>
    let fresh : ServiceAccount := { ObjectMeta := meta, Secrets := [] }
    let stored := createOrPatch (fun sa => meta.isNamed sa.ObjectMeta) fresh transform
                    w.serviceAccounts
    (none, { w with serviceAccounts := stored })

def CreateOrPatchRoleBinding (apiErr : Option Error) (w : World) (meta : ObjectMeta)
    (transform : RoleBinding → RoleBinding) : Option Error × World :=
  match apiErr with
  | some err => (some err, w)
  | none =>
    let fresh : RoleBinding :=
      { ObjectMeta := meta, RoleRef := { APIGroup := "", Kind := "", Name := "" },
        Subjects := [] }
    let stored := createOrPatch (fun rb => meta.isNamed rb.ObjectMeta) fresh transform
                    w.roleBindings
    (none, { w with roleBindings := stored })

/-- The two assignments `if in.Labels == nil ...; in.Labels["app"] = "stash"`. -/
def setAppLabel (m : ObjectMeta) : ObjectMeta :=
  let labels := match m.Labels with
    | none => []
    | some l => l
  { m with Labels := some (mapSet labels "app" "stash") }

/-- The mutator `ensureCheckRBAC` hands to `CreateOrPatchServiceAccount`. -/
def serviceAccountMutator (env : Env) (resource : ObjectReference) (sa : ServiceAccount) :
    ServiceAccount :=
  { sa with ObjectMeta := setAppLabel (env.ensureOwnerReference sa.ObjectMeta resource) }

def rbacGroupName : String := "rbac.authorization.k8s.io"

/-- The mutator `ensureCheckRBAC` hands to `CreateOrPatchRoleBinding`. -/
def roleBindingMutator (env : Env) (resource : ObjectReference) (meta : ObjectMeta)
    (rb : RoleBinding) : RoleBinding :=
  { ObjectMeta := setAppLabel (env.ensureOwnerReference rb.ObjectMeta resource),
    RoleRef := { APIGroup := rbacGroupName, Kind := "ClusterRole",
                 Name := env.sidecarClusterRole },
    Subjects := [{ Kind := "ServiceAccount", Name := meta.Name, Namespace := meta.Namespace }] }

/-- The `metav1.ObjectMeta` literal of `ensureCheckRBAC`. -/
def checkMeta (resource : ObjectReference) : ObjectMeta :=
  { Name := resource.Name, Namespace := resource.Namespace, UID := "",
    Labels := none, OwnerReferences := [] }

/-- The method `Controller.ensureCheckRBAC`. -/
def ensureCheckRBAC (env : Env) (resource : ObjectReference) (w : World) :
    Option Error × World :=
  let r := CreateOrPatchServiceAccount env.serviceAccountErr w (checkMeta resource)
             (serviceAccountMutator env resource)
  match r.1 with
  | some err => (some err, r.2)
  | none =>
    CreateOrPatchRoleBinding env.roleBindingErr r.2 (checkMeta resource)
      (roleBindingMutator env resource (checkMeta resource))

/-! ## Backup -/

/-- Modelled from the spec: `docker.ImageStash` is declared outside the sources
at hand; the image reference of the check job has a fixed image name. -/
def ImageStash : String := "stash"

/-- The job `Backup` builds and passes to the job creation call: `NewCheckJob`
on the image, with the service account named as the job when access control is
enabled. -/
def checkJobOf (env : Env) (opt : Options) (resource : Restic) : Job :=
  let image : Docker :=
    { Registry := opt.DockerRegistry, Image := ImageStash, Tag := opt.ImageTag }
  let job := env.newCheckJob resource opt.SnapshotHostname opt.SmartPrefix image
  if opt.EnableRBAC then ({ job with ServiceAccountName := job.ObjectMeta.Name }) else job

/-- The success event at the end of `Backup`. -/
def checkJobCreated (resource : Restic) (job : Job) (w : World) : Option Error × World :=
  (none, CreateEventWithLog w BackupEventComponent resource.ObjectReference
           .Normal .CheckJobCreated ("Created check job: " ++ job.ObjectMeta.Name))

/-- The part of `Controller.Backup` after the check job was created: with access
control enabled its service account and role binding, then the success event. -/
def afterJobCreated (env : Env) (opt : Options) (resource : Restic) (job : Job) (w : World) :
    Option Error × World :=
  if opt.EnableRBAC then
    match env.getReference job with
    | .error err => (some err, w)
    | .ok ref =>
      let r := ensureCheckRBAC env ref w
      match r.1 with
      | some err =>
        (some ("error ensuring rbac for check job " ++ job.ObjectMeta.Name ++ ", reason: "
                 ++ err ++ "\n"), r.2)
      | none => checkJobCreated resource job r.2
  else checkJobCreated resource job w

/-- The part of `Controller.Backup` after a successful `runResticBackup`: the
creation of the check job, then `afterJobCreated`. -/
def createCheckJob (env : Env) (opt : Options) (resource : Restic) (w : World) :
    Option Error × World :=
  let w := w.record (.createJob (checkJobOf env opt resource))
  match env.createJob (checkJobOf env opt resource) with
  | .error e =>
    let err := "failed to create check job, reason: " ++ e
    (some err, CreateEventWithLog w BackupEventComponent resource.ObjectReference
                 .Warning .FailedCronJob err)
  | .ok job => afterJobCreated env opt resource job { w with jobs := w.jobs ++ [job] }

/-- The method `Controller.Backup`.  `setup` never returns a nil resource without an error
(see `setup_resource_of_ok`), so the third case is not reached; there the code
would dereference a nil pointer. -/
def Backup (env : Env) (opt : Options) (w : World) : Option Error × World :=
  match setup env opt w with
  | (resource, some e) =>
    let err := "failed to setup backup. Error: " ++ e
    match resource with
    | some r =>
      (some err, CreateEventWithLog w BackupEventComponent r.ObjectReference
                   .Warning .FailedSetup err)
    | none => (some err, w)
  | (some resource, none) =>
    let r := runResticBackup env opt resource w
    match r.1 with
    | some err => (some ("failed to run backup, reason: " ++ err), r.2)
    | none => createCheckJob env opt resource r.2
  | (none, none) => (some "invalid memory address or nil pointer dereference", w)

/-- The effects a run added to the log of the world it started from. -/
def effectsSince (w0 w1 : World) : List Effect :=
  w1.log.drop w0.log.length

/-! ## Specification-side descriptions

The functions below describe a run by the answers of `Env` alone; the lemmas of
the next section relate them to the embedded code. -/

/-- The planned archiving calls: backup then forget, per file group in order. -/
def plannedCalls : List FileGroup → List Effect
  | [] => []
  | fg :: rest => .backup fg :: .forget fg :: plannedCalls rest

/-- The answers to the planned archiving calls of `n` file groups from position
`k` on, in the order of `plannedCalls`. -/
def plannedAnswers (env : Env) : Nat → Nat → List (Option Error)
  | _, 0 => []
  | k, n + 1 => env.backupErr k :: env.forgetErr k :: plannedAnswers env (k + 1) n

/-- The first failing answer of a list of answers, `none` when every one is a success. -/
def firstError : List (Option Error) → Option Error
  | [] => none
  | some e :: _ => some e
  | none :: rest => firstError rest

/-- The number of successful answers before the first failing one. -/
def successesBeforeError : List (Option Error) → Nat
  | [] => 0
  | some _ :: _ => 0
  | none :: rest => successesBeforeError rest + 1

/-- The event of a successful backup of a file group. -/
def successfulBackupEvent (env : Env) (resource : Restic) (fg : FileGroup) : Event :=
  { component := BackupEventComponent, ref := resource.ObjectReference, type := .Normal,
    reason := .SuccessfulBackup,
    message := "Backed up pod: " ++ env.hostname ++ ", path: " ++ fg.Path }

/-- The Warning events of a list of events. -/
def warningsOf (l : List Event) : List Event :=
  l.filter (fun e => decide (e.type = .Warning))

/-- The effects of the loop over the file groups from position `k` on. -/
def groupTrace (env : Env) (resource : Restic) : Nat → List FileGroup → List Effect
  | _, [] => []
  | k, fg :: rest =>
    .backup fg ::
      (match env.backupErr k with
       | some err =>
         [.event { component := BackupEventComponent, ref := resource.ObjectReference,
                   type := .Warning, reason := .FailedToBackup,
                   message := "Backup failed, reason: " ++ err }]
       | none =>
         .event (successfulBackupEvent env resource fg) :: .forget fg ::
           (match env.forgetErr k with
            | some err =>
              [.event { component := BackupEventComponent, ref := resource.ObjectReference,
                        type := .Warning, reason := .FailedToRetention,
                        message := "Failed to forget old snapshots, reason: " ++ err }]
            | none => groupTrace env resource (k + 1) rest))

/-- The error of the loop over the file groups from position `k` on. -/
def groupError (env : Env) : Nat → List FileGroup → Option Error
  | _, [] => none
  | k, _ :: rest =>
    match env.backupErr k with
    | some err => some err
    | none =>
      match env.forgetErr k with
      | some err => some err
      | none => groupError env (k + 1) rest

/-- The effects of the deferred function of `runResticBackup`. -/
def deferredTrace (env : Env) (opt : Options) (resource : Restic) (err : Option Error)
    (gauges : List ((String × String) × Int)) : List Effect :=
  (if opt.PushgatewayURL ≠ "" then
     [Effect.push { url := opt.PushgatewayURL,
                    success := if err.isSome then 0 else 1,
                    fail := if err.isSome then 1 else 0,
                    durationTotal := env.endTime - env.startTime,
                    durations := gauges }]
   else []) ++
  (if err = none then
     [Effect.patchRestic resource
        (statusMutator env.startTime (env.durationString (env.endTime - env.startTime)))]
   else [])

/-- Every archiving call of the first `n` positions succeeds. -/
def allSucceed (env : Env) (n : Nat) : Prop :=
  ∀ k, k < n → env.backupErr k = none ∧ env.forgetErr k = none

/-- The error of the access-control step for a created job, by the answers of
`Env` alone; `none` with access control disabled. -/
def rbacError (env : Env) (opt : Options) (job : Job) : Option Error :=
  if opt.EnableRBAC then
    match env.getReference job with
    | .error err => some err
    | .ok _ =>
      match env.serviceAccountErr with
      | some err =>
        some ("error ensuring rbac for check job " ++ job.ObjectMeta.Name ++ ", reason: "
                ++ err ++ "\n")
      | none =>
        match env.roleBindingErr with
        | some err =>
          some ("error ensuring rbac for check job " ++ job.ObjectMeta.Name ++ ", reason: "
                  ++ err ++ "\n")
        | none => none
  else none

/-- The event of a created check job. -/
def checkJobCreatedEvent (resource : Restic) (job : Job) : Event :=
  { component := BackupEventComponent, ref := resource.ObjectReference, type := .Normal,
    reason := .CheckJobCreated, message := "Created check job: " ++ job.ObjectMeta.Name }

/-- The effects of the part of `Backup` after a successful `runResticBackup`. -/
def checkJobTrace (env : Env) (opt : Options) (resource : Restic) : List Effect :=
  .createJob (checkJobOf env opt resource) ::
    (match env.createJob (checkJobOf env opt resource) with
     | .error e =>
       [.event { component := BackupEventComponent, ref := resource.ObjectReference,
                 type := .Warning, reason := .FailedCronJob,
                 message := "failed to create check job, reason: " ++ e }]
     | .ok job =>
       match rbacError env opt job with
       | some _ => []
       | none => [.event (checkJobCreatedEvent resource job)])

/-- The error of the part of `Backup` after a successful `runResticBackup`. -/
def checkJobError (env : Env) (opt : Options) (resource : Restic) : Option Error :=
  match env.createJob (checkJobOf env opt resource) with
  | .error e => some ("failed to create check job, reason: " ++ e)
  | .ok job => rbacError env opt job

/-- Every declared file group was backed up and retained successfully in a run
with the effects `t`: each planned call was made and each was answered with
success. -/
def archivedAll (env : Env) (resource : Restic) (t : List Effect) : Prop :=
  archiveCallsOf t = plannedCalls resource.Spec.FileGroups ∧
  allSucceed env resource.Spec.FileGroups.length

/-! ### A concrete run: two file groups `/data` and `/logs` -/

def demoRestic : Restic :=
  { Name := "demo", Namespace := "default", UID := "u-1",
    Spec := { FileGroups := [{ Path := "/data", RetentionPolicyName := "keep" },
                             { Path := "/logs", RetentionPolicyName := "keep" }],
              Backend := { StorageSecretName := "repo-secret" },
              Paused := false },
    Status := { BackupCount := 4, FirstBackupTime := some 10, LastBackupTime := some 40,
                LastBackupDuration := "1s" } }

def demoWorld : World :=
  { restic := some demoRestic, jobs := [], serviceAccounts := [], roleBindings := [], log := [] }

def demoOptions : Options :=
  { Namespace := "default", ResticName := "demo", ScratchDir := "/tmp", PushgatewayURL := "",
    SmartPrefix := "", SnapshotHostname := "host", DockerRegistry := "appscode",
    ImageTag := "canary", EnableRBAC := false }

def demoJob (r : Restic) (_host _pre : String) (image : Docker) : Job :=
  { ObjectMeta := { Name := "stash-check-" ++ r.Name, Namespace := r.Namespace, UID := "",
                    Labels := none, OwnerReferences := [] },
    ServiceAccountName := "", Image := image }

/-- The owner reference to an object. -/
def ownerReferenceTo (o : ObjectReference) : OwnerReference :=
  { APIVersion := o.APIVersion, Kind := o.Kind, Name := o.Name, UID := o.UID }

/-- An owner reference refers to an object when kind, name and uid agree. -/
def OwnerReference.refersTo (o : OwnerReference) (owner : ObjectReference) : Bool :=
  decide (o.Kind = owner.Kind ∧ o.Name = owner.Name ∧ o.UID = owner.UID)

/-- The number of owner references to `owner` that the metadata carries. -/
def ownerCount (owner : ObjectReference) (m : ObjectMeta) : Nat :=
  (m.OwnerReferences.filter (fun o => o.refersTo owner)).length

/-- The value of a label, `none` when the map is nil or has no such key. -/
def labelOf (m : ObjectMeta) (key : String) : Option String :=
  match m.Labels with
  | none => none
  | some l => l.lookup key

/-- The external `EnsureOwnerReference` is idempotent. -/
def idempotentOwner (e : ObjectMeta → ObjectReference → ObjectMeta) : Prop :=
  ∀ m owner, e (e m owner) owner = e m owner

/-- What is assumed of the external `EnsureOwnerReference` for an owner: it is
idempotent, and it rewrites the owner references only, whatever the labels
are. -/
structure OwnerReferenceContract (e : ObjectMeta → ObjectReference → ObjectMeta)
    (owner : ObjectReference) : Prop where
  frame : ∀ m, e m owner = { m with OwnerReferences := (e m owner).OwnerReferences }
  labels : ∀ m l, (e { m with Labels := l } owner).OwnerReferences
                    = (e m owner).OwnerReferences
  idem : ∀ m, e (e m owner) owner = e m owner

/-- An idempotent owner-reference function that reads the labels: it drops the
owner references of an object labelled app=stash and sets the owner on any
other. -/
def labelOwnerReference (m : ObjectMeta) (o : ObjectReference) : ObjectMeta :=
  if labelOf m "app" = some "stash" then { m with OwnerReferences := [] }
  else { m with OwnerReferences := [ownerReferenceTo o] }

/-- An idempotent owner-reference function that leaves the metadata as it is. -/
def keepOwnerReference (m : ObjectMeta) (_o : ObjectReference) : ObjectMeta := m

/-- The stored service account the API returns for the name of `meta`. -/
def World.getServiceAccount (w : World) (meta : ObjectMeta) : Option ServiceAccount :=
  w.serviceAccounts.find? (fun sa => meta.isNamed sa.ObjectMeta)

/-- The stored role binding the API returns for the name of `meta`. -/
def World.getRoleBinding (w : World) (meta : ObjectMeta) : Option RoleBinding :=
  w.roleBindings.find? (fun rb => meta.isNamed rb.ObjectMeta)

/-- An owner-reference function for the concrete runs: references to the owner
are replaced by a single one. -/
def demoEnsureOwnerReference (m : ObjectMeta) (o : ObjectReference) : ObjectMeta :=
  let others := m.OwnerReferences.filter (fun r => !r.refersTo o)
  { m with OwnerReferences := others ++ [ownerReferenceTo o] }

/-- The reference of the check job in the concrete runs. -/
def demoJobReference : ObjectReference :=
  { APIVersion := "batch/v1", Kind := "Job", Namespace := "default",
    Name := "stash-check-demo", UID := "j-1" }

/-- An environment in which every external call succeeds. -/
def demoEnv : Env :=
  { mkdirAll := none, writeFile := none, getResticErr := none,
    isValid := fun _ => none,
    getSecret := fun _ _ => .ok "secret",
    setupEnv := fun _ _ _ => none,
    initRepository := none,
    startTime := 100, endTime := 160,
    durationString := fun _ => "60ns",
    hostname := "pod-0",
    sanitizeLabelValue := fun p => p,
    backupErr := fun _ => none,
    forgetErr := fun _ => none,
    backupElapsed := fun _ => 20,
    forgetElapsed := fun _ => 5,
    newCheckJob := demoJob,
    createJob := fun j => .ok { j with ObjectMeta := { j.ObjectMeta with UID := "j-1" } },
    getReference := fun j =>
      .ok { APIVersion := "batch/v1", Kind := "Job", Namespace := j.ObjectMeta.Namespace,
            Name := j.ObjectMeta.Name, UID := j.ObjectMeta.UID },
    serviceAccountErr := none, roleBindingErr := none,
    ensureOwnerReference := demoEnsureOwnerReference,
    sidecarClusterRole := "stash-sidecar" }

/-- The resource of the concrete run with its counter at the top value. -/
def topRestic : Restic :=
  { demoRestic with Status := { demoRestic.Status with BackupCount := maxInt64 } }

def topWorld : World :=
  { demoWorld with restic := some topRestic }

/-- The resource of the concrete run, paused. -/
def pausedRestic : Restic :=
  { demoRestic with Spec := { demoRestic.Spec with Paused := true } }

def pausedWorld : World :=
  { demoWorld with restic := some pausedRestic }

/-- The environment of the concrete run, with the owner-reference function that
reads the labels. -/
def labelEnv : Env :=
  { demoEnv with ensureOwnerReference := labelOwnerReference }

/-- The environment of the concrete run, with the owner-reference function that
leaves the metadata as it is. -/
def keepEnv : Env :=
  { demoEnv with ensureOwnerReference := keepOwnerReference }

/-- The environment of the concrete run, except that the job creation call fails. -/
def failingJobEnv : Env :=
  { demoEnv with createJob := fun _ => .error "forbidden" }

/-- The options of the concrete run, with access control enabled. -/
def rbacOptions : Options :=
  { demoOptions with EnableRBAC := true }

/-- The environment of the concrete run, except that the reference of the
created job cannot be resolved. -/
def noReferenceEnv : Env :=
  { demoEnv with getReference := fun _ => .error "kind not registered" }

/-- The environment of the concrete run, except that the backup of the first
file group fails. -/
def failingBackupEnv : Env :=
  { demoEnv with backupErr := fun k => if k = 0 then some "exit status 1" else none }

/-- The environment of the concrete run, except that the retention of the first
file group fails. -/
def failingForgetEnv : Env :=
  { demoEnv with forgetErr := fun k => if k = 0 then some "exit status 1" else none }

/-- The environment of the concrete run, except that the resource is invalid. -/
def invalidEnv : Env :=
  { demoEnv with isValid := fun _ => some "missing file groups" }

/-! ## The embedded code and its trace -/

theorem effectsSince_append (w0 w1 : World) (t : List Effect) (h : w1.log = w0.log ++ t) :
    effectsSince w0 w1 = t := by
  simp [effectsSince, h]

theorem eventsOf_append (a b : List Effect) : eventsOf (a ++ b) = eventsOf a ++ eventsOf b := by
  induction a with
  | nil => rfl
  | cons x a ih => cases x <;> simp [eventsOf, ih]

theorem archiveCallsOf_append (a b : List Effect) :
    archiveCallsOf (a ++ b) = archiveCallsOf a ++ archiveCallsOf b := by
  induction a with
  | nil => rfl
  | cons x a ih => cases x <;> simp [archiveCallsOf, ih]

theorem patchesOf_append (a b : List Effect) :
    patchesOf (a ++ b) = patchesOf a ++ patchesOf b := by
  induction a with
  | nil => rfl
  | cons x a ih => cases x <;> simp [patchesOf, ih]

theorem pushesOf_append (a b : List Effect) :
    pushesOf (a ++ b) = pushesOf a ++ pushesOf b := by
  induction a with
  | nil => rfl
  | cons x a ih => cases x <;> simp [pushesOf, ih]

theorem createJobCallsOf_append (a b : List Effect) :
    createJobCallsOf (a ++ b) = createJobCallsOf a ++ createJobCallsOf b := by
  induction a with
  | nil => rfl
  | cons x a ih => cases x <;> simp [createJobCallsOf, ih]

theorem runFileGroups_fst (env : Env) (resource : Restic) (k : Nat) (gs : List FileGroup)
    (s : Session) : (runFileGroups env resource k gs s).1 = groupError env k gs := by
  induction gs generalizing k s with
  | nil => rfl
  | cons fg rest ih =>
    simp only [runFileGroups, groupError, measure, resticBackup, resticForget]
    cases hb : env.backupErr k with
    | some e => rfl
    | none =>
      cases hf : env.forgetErr k with
      | some e => rfl
      | none => simpa using ih _ _

theorem runFileGroups_world (env : Env) (resource : Restic) (k : Nat) (gs : List FileGroup)
    (s : Session) :
    (runFileGroups env resource k gs s).2.world =
      { s.world with log := s.world.log ++ groupTrace env resource k gs } := by
  induction gs generalizing k s with
  | nil => simp [runFileGroups, groupTrace]
  | cons fg rest ih =>
    simp only [runFileGroups, groupTrace, measure, resticBackup, resticForget]
    cases hb : env.backupErr k with
    | some e => simp [CreateEventWithLog, World.record]
    | none =>
      cases hf : env.forgetErr k with
      | some e => simp [CreateEventWithLog, World.record, successfulBackupEvent]
      | none =>
        simp only []
        rw [ih]
        simp [CreateEventWithLog, World.record, successfulBackupEvent]

theorem runDeferred_log (env : Env) (opt : Options) (resource : Restic) (err : Option Error)
    (s : Session) :
    (runDeferred env opt resource err s).log =
      s.world.log ++ deferredTrace env opt resource err s.gauges := by
  unfold runDeferred deferredTrace PatchRestic World.record
  by_cases hu : opt.PushgatewayURL = "" <;> cases err <;> simp [hu]

theorem runDeferred_restic (env : Env) (opt : Options) (resource : Restic)
    (err : Option Error) (s : Session) :
    (runDeferred env opt resource err s).restic =
      if err = none then
        some (statusMutator env.startTime (env.durationString (env.endTime - env.startTime))
                resource)
      else s.world.restic := by
  unfold runDeferred PatchRestic World.record
  by_cases hu : opt.PushgatewayURL = "" <;> cases err <;> simp [hu]

theorem runDeferred_frame (env : Env) (opt : Options) (resource : Restic)
    (err : Option Error) (s : Session) :
    (runDeferred env opt resource err s).jobs = s.world.jobs ∧
    (runDeferred env opt resource err s).serviceAccounts = s.world.serviceAccounts ∧
    (runDeferred env opt resource err s).roleBindings = s.world.roleBindings := by
  unfold runDeferred PatchRestic World.record
  by_cases hu : opt.PushgatewayURL = "" <;> cases err <;> simp [hu]

/-- The log of an unpaused `runResticBackup`: the trace of the loop, then the
trace of the deferred function. -/
theorem runResticBackup_log (env : Env) (opt : Options) (resource : Restic) (w : World)
    (hp : resource.Spec.Paused = false) :
    ∃ g, (runResticBackup env opt resource w).2.log =
      w.log ++ (groupTrace env resource 0 resource.Spec.FileGroups ++
        deferredTrace env opt resource (groupError env 0 resource.Spec.FileGroups) g) := by
  refine ⟨(runFileGroups env resource 0 resource.Spec.FileGroups
            { world := w, gauges := [] }).2.gauges, ?_⟩
  simp only [runResticBackup, hp, Bool.false_eq_true, if_false]
  rw [runDeferred_log, runFileGroups_world, runFileGroups_fst]
  simp

theorem runResticBackup_fst (env : Env) (opt : Options) (resource : Restic) (w : World)
    (hp : resource.Spec.Paused = false) :
    (runResticBackup env opt resource w).1 = groupError env 0 resource.Spec.FileGroups := by
  simp only [runResticBackup, hp, Bool.false_eq_true, if_false]
  exact runFileGroups_fst _ _ _ _ _

theorem groupError_of_allSucceed (env : Env) (k : Nat) (gs : List FileGroup)
    (h : ∀ j, j < gs.length → env.backupErr (k + j) = none ∧ env.forgetErr (k + j) = none) :
    groupError env k gs = none := by
  induction gs generalizing k with
  | nil => rfl
  | cons fg rest ih =>
    have h0 := h 0 (by simp)
    simp only [Nat.add_zero] at h0
    simp only [groupError, h0.1, h0.2]
    apply ih
    intro j hj
    have := h (j + 1) (by simpa using hj)
    simpa [Nat.add_assoc, Nat.add_comm 1 j] using this

theorem groupTrace_patches (env : Env) (resource : Restic) (k : Nat) (gs : List FileGroup) :
    patchesOf (groupTrace env resource k gs) = [] := by
  induction gs generalizing k with
  | nil => rfl
  | cons fg rest ih =>
    simp only [groupTrace]
    cases env.backupErr k with
    | some e => rfl
    | none =>
      cases env.forgetErr k with
      | some e => rfl
      | none => simpa [patchesOf] using ih _

theorem groupTrace_pushes (env : Env) (resource : Restic) (k : Nat) (gs : List FileGroup) :
    pushesOf (groupTrace env resource k gs) = [] := by
  induction gs generalizing k with
  | nil => rfl
  | cons fg rest ih =>
    simp only [groupTrace]
    cases env.backupErr k with
    | some e => rfl
    | none =>
      cases env.forgetErr k with
      | some e => rfl
      | none => simpa [pushesOf] using ih _

theorem groupTrace_createJobCalls (env : Env) (resource : Restic) (k : Nat)
    (gs : List FileGroup) : createJobCallsOf (groupTrace env resource k gs) = [] := by
  induction gs generalizing k with
  | nil => rfl
  | cons fg rest ih =>
    simp only [groupTrace]
    cases env.backupErr k with
    | some e => rfl
    | none =>
      cases env.forgetErr k with
      | some e => rfl
      | none => simpa [createJobCallsOf] using ih _

theorem deferredTrace_patches (env : Env) (opt : Options) (resource : Restic)
    (err : Option Error) (g : List ((String × String) × Int)) :
    patchesOf (deferredTrace env opt resource err g) =
      if err = none then
        [(resource, statusMutator env.startTime
            (env.durationString (env.endTime - env.startTime)) resource)]
      else [] := by
  unfold deferredTrace
  by_cases hu : opt.PushgatewayURL = "" <;> cases err <;> simp [hu, patchesOf]

theorem deferredTrace_archiveCalls (env : Env) (opt : Options) (resource : Restic)
    (err : Option Error) (g : List ((String × String) × Int)) :
    archiveCallsOf (deferredTrace env opt resource err g) = [] := by
  unfold deferredTrace
  by_cases hu : opt.PushgatewayURL = "" <;> cases err <;> simp [hu, archiveCallsOf]

theorem deferredTrace_events (env : Env) (opt : Options) (resource : Restic)
    (err : Option Error) (g : List ((String × String) × Int)) :
    eventsOf (deferredTrace env opt resource err g) = [] := by
  unfold deferredTrace
  by_cases hu : opt.PushgatewayURL = "" <;> cases err <;> simp [hu, eventsOf]

theorem deferredTrace_createJobCalls (env : Env) (opt : Options) (resource : Restic)
    (err : Option Error) (g : List ((String × String) × Int)) :
    createJobCallsOf (deferredTrace env opt resource err g) = [] := by
  unfold deferredTrace
  by_cases hu : opt.PushgatewayURL = "" <;> cases err <;> simp [hu, createJobCallsOf]

theorem runResticBackup_patches (env : Env) (opt : Options) (resource : Restic) (w : World)
    (hp : resource.Spec.Paused = false) :
    patchesOf (effectsSince w (runResticBackup env opt resource w).2) =
      if (runResticBackup env opt resource w).1 = none then
        [(resource, statusMutator env.startTime
            (env.durationString (env.endTime - env.startTime)) resource)]
      else [] := by
  obtain ⟨g, hg⟩ := runResticBackup_log env opt resource w hp
  rw [effectsSince_append _ _ _ hg, patchesOf_append, groupTrace_patches,
    deferredTrace_patches, runResticBackup_fst env opt resource w hp]
  simp

theorem runResticBackup_restic (env : Env) (opt : Options) (resource : Restic) (w : World)
    (hp : resource.Spec.Paused = false) :
    (runResticBackup env opt resource w).2.restic =
      if (runResticBackup env opt resource w).1 = none then
        some (statusMutator env.startTime
                (env.durationString (env.endTime - env.startTime)) resource)
      else w.restic := by
  simp only [runResticBackup, hp, Bool.false_eq_true, if_false]
  rw [runDeferred_restic, runFileGroups_world]

theorem statusMutator_first_fixed (sessions : List (Time × String)) (r : Restic) (t : Time)
    (h : r.Status.FirstBackupTime = some t) :
    (sessions.foldl (fun acc p => statusMutator p.1 p.2 acc) r).Status.FirstBackupTime
      = some t := by
  induction sessions generalizing r with
  | nil => simpa using h
  | cons p rest ih =>
    simp only [List.foldl_cons]
    apply ih
    simp [statusMutator, h]

theorem archiveCalls_groupTrace (env : Env) (resource : Restic) (k : Nat)
    (gs : List FileGroup) :
    archiveCallsOf (groupTrace env resource k gs) =
      (plannedCalls gs).take (successesBeforeError (plannedAnswers env k gs.length) + 1) := by
  induction gs generalizing k with
  | nil => rfl
  | cons fg rest ih =>
    simp only [groupTrace, plannedCalls, plannedAnswers, List.length_cons]
    cases hb : env.backupErr k with
    | some e => simp [archiveCallsOf, successesBeforeError]
    | none =>
      cases hf : env.forgetErr k with
      | some e => simp [archiveCallsOf, successesBeforeError]
      | none => simp [archiveCallsOf, successesBeforeError, ih]

theorem groupError_eq_firstError (env : Env) (k : Nat) (gs : List FileGroup) :
    groupError env k gs = firstError (plannedAnswers env k gs.length) := by
  induction gs generalizing k with
  | nil => rfl
  | cons fg rest ih =>
    simp only [groupError, plannedAnswers, List.length_cons]
    cases hb : env.backupErr k with
    | some e => rfl
    | none =>
      cases hf : env.forgetErr k with
      | some e => rfl
      | none => simpa [firstError] using ih _

theorem take_plannedCalls_of_allSucceed (env : Env) (k : Nat) (gs : List FileGroup)
    (h : ∀ j, j < gs.length → env.backupErr (k + j) = none ∧ env.forgetErr (k + j) = none) :
    (plannedCalls gs).take (successesBeforeError (plannedAnswers env k gs.length) + 1)
      = plannedCalls gs := by
  induction gs generalizing k with
  | nil => rfl
  | cons fg rest ih =>
    have h0 := h 0 (by simp)
    simp only [Nat.add_zero] at h0
    simp only [plannedCalls, plannedAnswers, List.length_cons, h0.1, h0.2,
      successesBeforeError, List.take_succ_cons]
    congr 2
    apply ih
    intro j hj
    have := h (j + 1) (by simpa using hj)
    simpa [Nat.add_assoc, Nat.add_comm 1 j] using this

theorem take_plannedCalls_backup_fails (env : Env) (k i : Nat) (gs : List FileGroup)
    (fg : FileGroup) (e : Error) (hfg : gs.get? i = some fg)
    (h : ∀ j, j < i → env.backupErr (k + j) = none ∧ env.forgetErr (k + j) = none)
    (hb : env.backupErr (k + i) = some e) :
    (plannedCalls gs).take (successesBeforeError (plannedAnswers env k gs.length) + 1)
      = plannedCalls (gs.take i) ++ [Effect.backup fg] ∧
    firstError (plannedAnswers env k gs.length) = some e := by
  induction gs generalizing k i with
  | nil => simp at hfg
  | cons g rest ih =>
    cases i with
    | zero =>
      simp only [List.get?_cons_zero, Option.some.injEq] at hfg
      simp only [Nat.add_zero] at hb
      subst hfg
      simp [plannedCalls, plannedAnswers, hb, successesBeforeError, firstError]
    | succ i =>
      have h0 := h 0 (by simp)
      simp only [Nat.add_zero] at h0
      simp only [List.get?_cons_succ] at hfg
      have ih2 := ih (k + 1) i hfg
        (by
          intro j hj
          have := h (j + 1) (by omega)
          simpa [Nat.add_assoc, Nat.add_comm 1 j] using this)
        (by simpa [Nat.add_assoc, Nat.add_comm 1 i] using hb)
      simp only [plannedCalls, plannedAnswers, List.length_cons, h0.1, h0.2,
        successesBeforeError, List.take_succ_cons, firstError, ih2.1, ih2.2]
      simp

theorem take_plannedCalls_forget_fails (env : Env) (k i : Nat) (gs : List FileGroup)
    (e : Error) (hi : i < gs.length)
    (h : ∀ j, j < i → env.backupErr (k + j) = none ∧ env.forgetErr (k + j) = none)
    (hb : env.backupErr (k + i) = none) (hf : env.forgetErr (k + i) = some e) :
    (plannedCalls gs).take (successesBeforeError (plannedAnswers env k gs.length) + 1)
      = plannedCalls (gs.take (i + 1)) ∧
    firstError (plannedAnswers env k gs.length) = some e := by
  induction gs generalizing k i with
  | nil => simp at hi
  | cons g rest ih =>
    cases i with
    | zero =>
      simp only [Nat.add_zero] at hb hf
      simp [plannedCalls, plannedAnswers, hb, hf, successesBeforeError, firstError]
    | succ i =>
      have h0 := h 0 (by simp)
      simp only [Nat.add_zero] at h0
      have ih2 := ih (k + 1) i (by simpa using hi)
        (by
          intro j hj
          have := h (j + 1) (by omega)
          simpa [Nat.add_assoc, Nat.add_comm 1 j] using this)
        (by simpa [Nat.add_assoc, Nat.add_comm 1 i] using hb)
        (by simpa [Nat.add_assoc, Nat.add_comm 1 i] using hf)
      simp only [plannedCalls, plannedAnswers, List.length_cons, h0.1, h0.2,
        successesBeforeError, List.take_succ_cons, firstError, ih2.1, ih2.2]
      simp [plannedCalls]

/-! ### ensureCheckRBAC and the check job -/

theorem ensureCheckRBAC_frame (env : Env) (ref : ObjectReference) (w : World) :
    (ensureCheckRBAC env ref w).2.log = w.log ∧
    (ensureCheckRBAC env ref w).2.restic = w.restic ∧
    (ensureCheckRBAC env ref w).2.jobs = w.jobs := by
  unfold ensureCheckRBAC CreateOrPatchServiceAccount CreateOrPatchRoleBinding
  cases env.serviceAccountErr <;> cases env.roleBindingErr <;> simp

theorem ensureCheckRBAC_fst (env : Env) (ref : ObjectReference) (w : World) :
    (ensureCheckRBAC env ref w).1 =
      match env.serviceAccountErr with
      | some err => some err
      | none => env.roleBindingErr := by
  unfold ensureCheckRBAC CreateOrPatchServiceAccount CreateOrPatchRoleBinding
  cases env.serviceAccountErr <;> cases env.roleBindingErr <;> simp

theorem afterJobCreated_fst (env : Env) (opt : Options) (resource : Restic) (job : Job)
    (w : World) : (afterJobCreated env opt resource job w).1 = rbacError env opt job := by
  unfold afterJobCreated rbacError
  by_cases hr : opt.EnableRBAC = true
  · simp only [hr, if_true]
    cases hg : env.getReference job with
    | error e => rfl
    | ok ref =>
      simp only [ensureCheckRBAC_fst]
      cases env.serviceAccountErr <;> cases env.roleBindingErr <;> simp [checkJobCreated]
  · simp [hr, checkJobCreated]

theorem afterJobCreated_log (env : Env) (opt : Options) (resource : Restic) (job : Job)
    (w : World) :
    (afterJobCreated env opt resource job w).2.log =
      w.log ++ (match rbacError env opt job with
                | some _ => []
                | none => [Effect.event (checkJobCreatedEvent resource job)]) := by
  unfold afterJobCreated rbacError
  by_cases hr : opt.EnableRBAC = true
  · simp only [hr, if_true]
    cases hg : env.getReference job with
    | error e => simp
    | ok ref =>
      have hf := (ensureCheckRBAC_frame env ref w).1
      have h1 := ensureCheckRBAC_fst env ref w
      cases hs : env.serviceAccountErr with
      | some e =>
        simp only [hs] at h1
        simp [h1, hf]
      | none =>
        cases hb : env.roleBindingErr with
        | some e =>
          simp only [hs, hb] at h1
          simp [h1, hf]
        | none =>
          simp only [hs, hb] at h1
          simp [h1, hf, checkJobCreated, World.record, CreateEventWithLog, checkJobCreatedEvent]
  · simp [hr, checkJobCreated, World.record, CreateEventWithLog, checkJobCreatedEvent]

theorem afterJobCreated_restic (env : Env) (opt : Options) (resource : Restic) (job : Job)
    (w : World) : (afterJobCreated env opt resource job w).2.restic = w.restic := by
  unfold afterJobCreated
  by_cases hr : opt.EnableRBAC = true
  · simp only [hr, if_true]
    cases hg : env.getReference job with
    | error e => rfl
    | ok ref =>
      have hf := (ensureCheckRBAC_frame env ref w).2.1
      simp only []
      split
      · exact hf
      · simpa [checkJobCreated, World.record, CreateEventWithLog] using hf
  · simp [hr, checkJobCreated, World.record, CreateEventWithLog]

theorem createCheckJob_fst (env : Env) (opt : Options) (resource : Restic) (w : World) :
    (createCheckJob env opt resource w).1 = checkJobError env opt resource := by
  unfold createCheckJob checkJobError
  cases hc : env.createJob (checkJobOf env opt resource) with
  | error e => rfl
  | ok job => simp [afterJobCreated_fst]

theorem createCheckJob_log (env : Env) (opt : Options) (resource : Restic) (w : World) :
    (createCheckJob env opt resource w).2.log = w.log ++ checkJobTrace env opt resource := by
  unfold createCheckJob checkJobTrace
  cases hc : env.createJob (checkJobOf env opt resource) with
  | error e => simp [CreateEventWithLog, World.record]
  | ok job =>
    simp only [afterJobCreated_log]
    cases rbacError env opt job <;> simp [World.record]

theorem createCheckJob_restic (env : Env) (opt : Options) (resource : Restic) (w : World) :
    (createCheckJob env opt resource w).2.restic = w.restic := by
  unfold createCheckJob
  cases hc : env.createJob (checkJobOf env opt resource) with
  | error e => simp [CreateEventWithLog, World.record]
  | ok job => simp [afterJobCreated_restic, World.record]

/-! ### Events of the loop over the file groups -/

theorem groupTrace_events_of_success (env : Env) (resource : Restic) (k : Nat)
    (gs : List FileGroup) (h : groupError env k gs = none) :
    eventsOf (groupTrace env resource k gs) = gs.map (successfulBackupEvent env resource) := by
  induction gs generalizing k with
  | nil => rfl
  | cons fg rest ih =>
    simp only [groupError] at h
    simp only [groupTrace]
    cases hb : env.backupErr k with
    | some e => simp [hb] at h
    | none =>
      cases hf : env.forgetErr k with
      | some e => simp [hb, hf] at h
      | none =>
        simp only [hb, hf] at h
        simp [eventsOf, ih _ h]

theorem groupTrace_warnings_of_success (env : Env) (resource : Restic) (k : Nat)
    (gs : List FileGroup) (h : groupError env k gs = none) :
    warningsOf (eventsOf (groupTrace env resource k gs)) = [] := by
  rw [groupTrace_events_of_success env resource k gs h]
  simp [warningsOf, List.filter_eq_nil_iff, successfulBackupEvent]

theorem groupTrace_warnings_of_error (env : Env) (resource : Restic) (k : Nat)
    (gs : List FileGroup) (e : Error) (h : groupError env k gs = some e) :
    ∃ ev, warningsOf (eventsOf (groupTrace env resource k gs)) = [ev] ∧
      ev.ref = resource.ObjectReference ∧ ev.type = .Warning ∧
      (ev.reason = .FailedToBackup ∨ ev.reason = .FailedToRetention) := by
  induction gs generalizing k with
  | nil => simp [groupError] at h
  | cons fg rest ih =>
    simp only [groupError] at h
    simp only [groupTrace]
    cases hb : env.backupErr k with
    | some e1 =>
      exact ⟨{ component := BackupEventComponent, ref := resource.ObjectReference,
               type := .Warning, reason := .FailedToBackup,
               message := "Backup failed, reason: " ++ e1 },
             by simp [eventsOf, warningsOf], rfl, rfl, Or.inl rfl⟩
    | none =>
      cases hf : env.forgetErr k with
      | some e1 =>
        exact ⟨{ component := BackupEventComponent, ref := resource.ObjectReference,
                 type := .Warning, reason := .FailedToRetention,
                 message := "Failed to forget old snapshots, reason: " ++ e1 },
               by simp [eventsOf, warningsOf, successfulBackupEvent], rfl, rfl, Or.inr rfl⟩
      | none =>
        simp only [hb, hf] at h
        obtain ⟨ev, h1, h2⟩ := ih _ h
        refine ⟨ev, ?_, h2⟩
        simpa [eventsOf, warningsOf, successfulBackupEvent] using h1

theorem groupTrace_events_reason (env : Env) (resource : Restic) (k : Nat)
    (gs : List FileGroup) :
    ∀ ev ∈ eventsOf (groupTrace env resource k gs),
      ev.ref = resource.ObjectReference ∧
      (ev.reason = .SuccessfulBackup ∨ ev.reason = .FailedToBackup ∨
        ev.reason = .FailedToRetention) := by
  induction gs generalizing k with
  | nil => simp [groupTrace, eventsOf]
  | cons fg rest ih =>
    simp only [groupTrace]
    cases hb : env.backupErr k with
    | some e1 => simp [eventsOf]
    | none =>
      cases hf : env.forgetErr k with
      | some e1 => simp [eventsOf, successfulBackupEvent]
      | none =>
        intro ev hev
        simp only [eventsOf, List.mem_cons] at hev
        rcases hev with rfl | hev
        · simp [successfulBackupEvent]
        · exact ih _ ev hev

theorem groupError_none_iff (env : Env) (k : Nat) (gs : List FileGroup) :
    groupError env k gs = none ↔
      ∀ j, j < gs.length → env.backupErr (k + j) = none ∧ env.forgetErr (k + j) = none := by
  refine ⟨?_, groupError_of_allSucceed env k gs⟩
  induction gs generalizing k with
  | nil => intro _ j hj; simp at hj
  | cons fg rest ih =>
    intro h j hj
    simp only [groupError] at h
    cases hb : env.backupErr k with
    | some e => simp [hb] at h
    | none =>
      cases hf : env.forgetErr k with
      | some e => simp [hb, hf] at h
      | none =>
        simp only [hb, hf] at h
        cases j with
        | zero => simpa using ⟨hb, hf⟩
        | succ j =>
          have := ih (k + 1) h j (by simpa using hj)
          simpa [Nat.add_assoc, Nat.add_comm 1 j] using this

/-! ### Backup, by the result of setup -/

theorem setup_resource_of_ok (env : Env) (opt : Options) (w : World)
    (h : (setup env opt w).2 = none) : ∃ r, setup env opt w = (some r, none) := by
  unfold setup at h ⊢
  cases h1 : env.mkdirAll with
  | some e => simp [h1] at h
  | none =>
    cases h2 : env.writeFile with
    | some e => simp [h1, h2] at h
    | none =>
      cases h3 : getRestic env opt w with
      | error e => simp [h1, h2, h3] at h
      | ok r =>
        refine ⟨r, ?_⟩
        simp only [h1, h2, h3] at h ⊢
        cases h4 : env.isValid r with
        | some e => simp [h4] at h
        | none =>
          simp only [h4] at h ⊢
          cases h5 : env.getSecret r.Namespace r.Spec.Backend.StorageSecretName with
          | error e => simp [h5] at h
          | ok sec =>
            simp only [h5] at h ⊢
            cases h6 : env.setupEnv r.Spec.Backend sec opt.SmartPrefix with
            | some e => simp [h6] at h
            | none =>
              simp only [h6] at h ⊢
              cases h7 : env.initRepository with
              | some e => simp [h7] at h
              | none => rfl

theorem Backup_of_setup_error (env : Env) (opt : Options) (w : World) (r : Restic)
    (e : Error) (h : setup env opt w = (some r, some e)) :
    Backup env opt w =
      (some ("failed to setup backup. Error: " ++ e),
       CreateEventWithLog w BackupEventComponent r.ObjectReference .Warning .FailedSetup
         ("failed to setup backup. Error: " ++ e)) := by
  simp [Backup, h]

theorem Backup_of_setup_nil (env : Env) (opt : Options) (w : World) (e : Error)
    (h : setup env opt w = (none, some e)) :
    Backup env opt w = (some ("failed to setup backup. Error: " ++ e), w) := by
  simp [Backup, h]

theorem Backup_of_setup_ok (env : Env) (opt : Options) (w : World) (r : Restic)
    (h : setup env opt w = (some r, none)) :
    Backup env opt w =
      match (runResticBackup env opt r w).1 with
      | some err => (some ("failed to run backup, reason: " ++ err),
                     (runResticBackup env opt r w).2)
      | none => createCheckJob env opt r (runResticBackup env opt r w).2 := by
  simp [Backup, h]

theorem Backup_of_paused (env : Env) (opt : Options) (w : World) (r : Restic)
    (h : setup env opt w = (some r, none)) (hp : r.Spec.Paused = true) :
    Backup env opt w = createCheckJob env opt r w := by
  rw [Backup_of_setup_ok env opt w r h]
  simp [runResticBackup, hp]

theorem Backup_of_run_error (env : Env) (opt : Options) (w : World) (r : Restic) (e : Error)
    (h : setup env opt w = (some r, none)) (hp : r.Spec.Paused = false)
    (he : groupError env 0 r.Spec.FileGroups = some e) :
    Backup env opt w =
      (some ("failed to run backup, reason: " ++ e), (runResticBackup env opt r w).2) := by
  rw [Backup_of_setup_ok env opt w r h]
  have := runResticBackup_fst env opt r w hp
  rw [he] at this
  simp [this]

theorem Backup_of_run_ok (env : Env) (opt : Options) (w : World) (r : Restic)
    (h : setup env opt w = (some r, none)) (hp : r.Spec.Paused = false)
    (he : groupError env 0 r.Spec.FileGroups = none) :
    Backup env opt w = createCheckJob env opt r (runResticBackup env opt r w).2 := by
  rw [Backup_of_setup_ok env opt w r h]
  have := runResticBackup_fst env opt r w hp
  rw [he] at this
  simp [this]

/-! ### The effects of Backup, case by case -/

theorem effectsSince_self (w : World) : effectsSince w w = [] := by
  simp [effectsSince]

theorem checkJobTrace_archiveCalls (env : Env) (opt : Options) (r : Restic) :
    archiveCallsOf (checkJobTrace env opt r) = [] := by
  unfold checkJobTrace
  cases hc : env.createJob (checkJobOf env opt r) with
  | error e => simp [archiveCallsOf]
  | ok job => cases hr : rbacError env opt job <;> simp [hr, archiveCallsOf]

theorem checkJobTrace_patches (env : Env) (opt : Options) (r : Restic) :
    patchesOf (checkJobTrace env opt r) = [] := by
  unfold checkJobTrace
  cases hc : env.createJob (checkJobOf env opt r) with
  | error e => simp [patchesOf]
  | ok job => cases hr : rbacError env opt job <;> simp [hr, patchesOf]

theorem checkJobTrace_createJobCalls (env : Env) (opt : Options) (r : Restic) :
    createJobCallsOf (checkJobTrace env opt r) = [checkJobOf env opt r] := by
  unfold checkJobTrace
  cases hc : env.createJob (checkJobOf env opt r) with
  | error e => simp [createJobCallsOf]
  | ok job => cases hr : rbacError env opt job <;> simp [hr, createJobCallsOf]

theorem checkJobTrace_events (env : Env) (opt : Options) (r : Restic) :
    eventsOf (checkJobTrace env opt r) =
      match env.createJob (checkJobOf env opt r) with
      | .error e =>
        [{ component := BackupEventComponent, ref := r.ObjectReference,
           type := .Warning, reason := .FailedCronJob,
           message := "failed to create check job, reason: " ++ e }]
      | .ok job =>
        match rbacError env opt job with
        | some _ => []
        | none => [checkJobCreatedEvent r job] := by
  unfold checkJobTrace
  cases hc : env.createJob (checkJobOf env opt r) with
  | error e => simp [eventsOf]
  | ok job => cases hr : rbacError env opt job <;> simp [hr, eventsOf]

theorem Backup_effects_setup_error (env : Env) (opt : Options) (w : World) (r : Restic)
    (e : Error) (h : setup env opt w = (some r, some e)) :
    (Backup env opt w).1 = some ("failed to setup backup. Error: " ++ e) ∧
    effectsSince w (Backup env opt w).2 =
      [.event { component := BackupEventComponent, ref := r.ObjectReference,
                type := .Warning, reason := .FailedSetup,
                message := "failed to setup backup. Error: " ++ e }] ∧
    (Backup env opt w).2.restic = w.restic := by
  rw [Backup_of_setup_error env opt w r e h]
  simp [effectsSince, CreateEventWithLog, World.record]

theorem Backup_effects_paused (env : Env) (opt : Options) (w : World) (r : Restic)
    (h : setup env opt w = (some r, none)) (hp : r.Spec.Paused = true) :
    (Backup env opt w).1 = checkJobError env opt r ∧
    effectsSince w (Backup env opt w).2 = checkJobTrace env opt r ∧
    (Backup env opt w).2.restic = w.restic := by
  rw [Backup_of_paused env opt w r h hp]
  exact ⟨createCheckJob_fst _ _ _ _,
    effectsSince_append _ _ _ (createCheckJob_log _ _ _ _), createCheckJob_restic _ _ _ _⟩

theorem Backup_effects_run_error (env : Env) (opt : Options) (w : World) (r : Restic)
    (e : Error) (h : setup env opt w = (some r, none)) (hp : r.Spec.Paused = false)
    (he : groupError env 0 r.Spec.FileGroups = some e) :
    (Backup env opt w).1 = some ("failed to run backup, reason: " ++ e) ∧
    (∃ g, effectsSince w (Backup env opt w).2 =
      groupTrace env r 0 r.Spec.FileGroups ++ deferredTrace env opt r (some e) g) ∧
    (Backup env opt w).2.restic = w.restic := by
  rw [Backup_of_run_error env opt w r e h hp he]
  obtain ⟨g, hg⟩ := runResticBackup_log env opt r w hp
  rw [he] at hg
  refine ⟨rfl, ⟨g, effectsSince_append _ _ _ hg⟩, ?_⟩
  have := runResticBackup_restic env opt r w hp
  rw [runResticBackup_fst env opt r w hp, he] at this
  simpa using this

theorem Backup_effects_run_ok (env : Env) (opt : Options) (w : World) (r : Restic)
    (h : setup env opt w = (some r, none)) (hp : r.Spec.Paused = false)
    (he : groupError env 0 r.Spec.FileGroups = none) :
    (Backup env opt w).1 = checkJobError env opt r ∧
    (∃ g, effectsSince w (Backup env opt w).2 =
      groupTrace env r 0 r.Spec.FileGroups ++ deferredTrace env opt r none g ++
        checkJobTrace env opt r) ∧
    (Backup env opt w).2.restic =
      some (statusMutator env.startTime
              (env.durationString (env.endTime - env.startTime)) r) := by
  rw [Backup_of_run_ok env opt w r h hp he]
  obtain ⟨g, hg⟩ := runResticBackup_log env opt r w hp
  rw [he] at hg
  refine ⟨createCheckJob_fst _ _ _ _, ⟨g, ?_⟩, ?_⟩
  · apply effectsSince_append
    rw [createCheckJob_log, hg]
    simp
  · rw [createCheckJob_restic]
    have := runResticBackup_restic env opt r w hp
    rw [runResticBackup_fst env opt r w hp, he] at this
    simpa using this

theorem setup_fetched (env : Env) (opt : Options) (w : World) (r : Restic)
    (h : (setup env opt w).1 = some r) :
    env.mkdirAll = none ∧ env.writeFile = none ∧ getRestic env opt w = .ok r := by
  unfold setup at h
  cases h1 : env.mkdirAll with
  | some e => simp [h1] at h
  | none =>
    cases h2 : env.writeFile with
    | some e => simp [h1, h2] at h
    | none =>
      cases h3 : getRestic env opt w with
      | error e => simp [h1, h2, h3] at h
      | ok r2 =>
        simp only [h1, h2, h3] at h
        have : r2 = r := by
          cases h4 : env.isValid r2 with
          | some e => simpa [h4] using h
          | none =>
            simp only [h4] at h
            cases h5 : env.getSecret r2.Namespace r2.Spec.Backend.StorageSecretName with
            | error e => simpa [h5] using h
            | ok sec =>
              simp only [h5] at h
              cases h6 : env.setupEnv r2.Spec.Backend sec opt.SmartPrefix with
              | some e => simpa [h6] using h
              | none =>
                simp only [h6] at h
                cases h7 : env.initRepository with
                | some e => simpa [h7] using h
                | none => simpa [h7] using h
        simp [this]

theorem getRestic_stored (env : Env) (opt : Options) (w : World) (r : Restic)
    (h : getRestic env opt w = .ok r) : w.restic = some r := by
  unfold getRestic at h
  cases h1 : env.getResticErr with
  | some e => simp [h1] at h
  | none =>
    cases h2 : w.restic with
    | none => simp [h1, h2] at h
    | some r2 =>
      simp only [h1, h2] at h
      injection h with h
      simp [h]

theorem setup_of_fetched (env : Env) (opt : Options) (w : World) (r : Restic)
    (h1 : env.mkdirAll = none) (h2 : env.writeFile = none)
    (h3 : getRestic env opt w = .ok r) : (setup env opt w).1 = some r := by
  unfold setup
  simp only [h1, h2, h3]
  cases h4 : env.isValid r with
  | some e => rfl
  | none =>
    simp only []
    cases h5 : env.getSecret r.Namespace r.Spec.Backend.StorageSecretName with
    | error e => rfl
    | ok sec =>
      simp only []
      cases h6 : env.setupEnv r.Spec.Backend sec opt.SmartPrefix with
      | some e => rfl
      | none =>
        simp only []
        cases h7 : env.initRepository <;> rfl

theorem runResticBackup_jobs (env : Env) (opt : Options) (r : Restic) (w : World) :
    (runResticBackup env opt r w).2.jobs = w.jobs := by
  unfold runResticBackup
  by_cases hp : r.Spec.Paused = true
  · simp [hp]
  · have hp2 : r.Spec.Paused = false := by simpa using hp
    simp only [hp2, Bool.false_eq_true, if_false]
    rw [(runDeferred_frame _ _ _ _ _).1, runFileGroups_world]

theorem warningsOf_append (a b : List Event) :
    warningsOf (a ++ b) = warningsOf a ++ warningsOf b := by
  simp [warningsOf]

theorem checkJobTrace_warnings_of_created (env : Env) (opt : Options) (r : Restic) (job : Job)
    (h : env.createJob (checkJobOf env opt r) = .ok job) :
    warningsOf (eventsOf (checkJobTrace env opt r)) = [] := by
  rw [checkJobTrace_events, h]
  cases hr : rbacError env opt job <;> simp [hr, warningsOf, checkJobCreatedEvent]

theorem checkJobTrace_warnings_of_error (env : Env) (opt : Options) (r : Restic) (e : Error)
    (h : env.createJob (checkJobOf env opt r) = .error e) :
    warningsOf (eventsOf (checkJobTrace env opt r)) =
      [{ component := BackupEventComponent, ref := r.ObjectReference,
         type := .Warning, reason := .FailedCronJob,
         message := "failed to create check job, reason: " ++ e }] := by
  rw [checkJobTrace_events, h]
  simp [warningsOf]

theorem checkJobTrace_events_reason (env : Env) (opt : Options) (r : Restic) :
    ∀ ev ∈ eventsOf (checkJobTrace env opt r),
      ev.ref = r.ObjectReference ∧
      (ev.reason = .FailedCronJob ∨ ev.reason = .CheckJobCreated) := by
  rw [checkJobTrace_events]
  cases hc : env.createJob (checkJobOf env opt r) with
  | error e => simp
  | ok job => cases hr : rbacError env opt job <;> simp [hr, checkJobCreatedEvent]

theorem Backup_events_of_setup_ok (env : Env) (opt : Options) (w : World) (r : Restic)
    (h : setup env opt w = (some r, none)) :
    ∀ ev ∈ eventsOf (effectsSince w (Backup env opt w).2),
      ev.ref = r.ObjectReference ∧ ev.reason ≠ .FailedSetup := by
  have hg0 : ∀ ev ∈ eventsOf (groupTrace env r 0 r.Spec.FileGroups),
      ev.ref = r.ObjectReference ∧ ev.reason ≠ .FailedSetup := by
    intro ev hm
    obtain ⟨h1, h2⟩ := groupTrace_events_reason env r 0 _ ev hm
    refine ⟨h1, ?_⟩
    rcases h2 with h2 | h2 | h2 <;> simp [h2]
  have hc0 : ∀ ev ∈ eventsOf (checkJobTrace env opt r),
      ev.ref = r.ObjectReference ∧ ev.reason ≠ .FailedSetup := by
    intro ev hm
    obtain ⟨h1, h2⟩ := checkJobTrace_events_reason env opt r ev hm
    refine ⟨h1, ?_⟩
    rcases h2 with h2 | h2 <;> simp [h2]
  by_cases hp : r.Spec.Paused = true
  · rw [(Backup_effects_paused env opt w r h hp).2.1]
    exact hc0
  · have hp2 : r.Spec.Paused = false := by simpa using hp
    cases hg : groupError env 0 r.Spec.FileGroups with
    | some e1 =>
      obtain ⟨_, ⟨g, h2⟩, _⟩ := Backup_effects_run_error env opt w r e1 h hp2 hg
      rw [h2, eventsOf_append, deferredTrace_events, List.append_nil]
      exact hg0
    | none =>
      obtain ⟨_, ⟨g, h2⟩, _⟩ := Backup_effects_run_ok env opt w r h hp2 hg
      rw [h2, eventsOf_append, eventsOf_append, deferredTrace_events, List.append_nil]
      intro ev hm
      rcases List.mem_append.mp hm with hm | hm
      · exact hg0 ev hm
      · exact hc0 ev hm

theorem setup_after_fetch (env : Env) (opt : Options) (w : World) (r : Restic)
    (h1 : env.mkdirAll = none) (h2 : env.writeFile = none)
    (h3 : getRestic env opt w = .ok r) :
    setup env opt w =
      match env.isValid r with
      | some err => (some r, some err)
      | none =>
        match env.getSecret r.Namespace r.Spec.Backend.StorageSecretName with
        | .error err => (some r, some err)
        | .ok secret =>
          match env.setupEnv r.Spec.Backend secret opt.SmartPrefix with
          | some err => (some r, some err)
          | none =>
            match env.initRepository with
            | some err => (some r, some err)
            | none => (some r, none) := by
  unfold setup
  simp only [h1, h2, h3]

/-! ### Create-or-patch and the two mutators -/

theorem mapSet_idem {κ ν : Type} [DecidableEq κ] (m : List (κ × ν)) (key : κ) (v : ν) :
    mapSet (mapSet m key v) key v = mapSet m key v := by
  induction m with
  | nil => simp [mapSet]
  | cons p rest ih =>
    obtain ⟨k, x⟩ := p
    by_cases hk : k = key
    · simp [mapSet, hk]
    · simp [mapSet, hk, ih]

theorem lookup_mapSet {κ ν : Type} [DecidableEq κ] (m : List (κ × ν)) (key : κ) (v : ν) :
    (mapSet m key v).lookup key = some v := by
  induction m with
  | nil => simp [mapSet, List.lookup]
  | cons p rest ih =>
    obtain ⟨k, x⟩ := p
    by_cases hk : k = key
    · subst hk
      simp [mapSet, List.lookup]
    · have hk2 : (key == k) = false := by
        simpa using fun h => hk h.symm
      simp [mapSet, hk, List.lookup, hk2, ih]

theorem setAppLabel_idem (m : ObjectMeta) : setAppLabel (setAppLabel m) = setAppLabel m := by
  simp [setAppLabel, mapSet_idem]

theorem setAppLabel_label (m : ObjectMeta) : labelOf (setAppLabel m) "app" = some "stash" := by
  simp [setAppLabel, labelOf, lookup_mapSet]

theorem ensure_setAppLabel_fixed (e : ObjectMeta → ObjectReference → ObjectMeta)
    (owner : ObjectReference) (hc : OwnerReferenceContract e owner) (m : ObjectMeta) :
    e (setAppLabel (e m owner)) owner = setAppLabel (e m owner) := by
  have h1 := hc.frame (setAppLabel (e m owner))
  have h2 : (e (setAppLabel (e m owner)) owner).OwnerReferences
      = (e m owner).OwnerReferences := by
    unfold setAppLabel
    rw [hc.labels, hc.idem]
  rw [h1, h2]
  simp [setAppLabel]

theorem metaMutator_idem (e : ObjectMeta → ObjectReference → ObjectMeta)
    (owner : ObjectReference) (hc : OwnerReferenceContract e owner) (m : ObjectMeta) :
    setAppLabel (e (setAppLabel (e m owner)) owner) = setAppLabel (e m owner) := by
  rw [ensure_setAppLabel_fixed e owner hc, setAppLabel_idem]

theorem metaMutator_named (e : ObjectMeta → ObjectReference → ObjectMeta)
    (owner : ObjectReference) (hc : OwnerReferenceContract e owner) (m : ObjectMeta) :
    (setAppLabel (e m owner)).Name = m.Name ∧
    (setAppLabel (e m owner)).Namespace = m.Namespace := by
  have h1 := hc.frame m
  constructor
  · show (e m owner).Name = m.Name
    rw [h1]
  · show (e m owner).Namespace = m.Namespace
    rw [h1]

theorem createOrPatch_idem {α : Type} (p : α → Bool) (fresh : α) (t : α → α)
    (hp : ∀ x, p x = true → p (t x) = true) (hfresh : p (t fresh) = true)
    (hidem : ∀ x, t (t x) = t x) (l : List α) :
    createOrPatch p fresh t (createOrPatch p fresh t l) = createOrPatch p fresh t l := by
  induction l with
  | nil => simp [createOrPatch, hfresh, hidem]
  | cons x rest ih =>
    by_cases hx : p x = true
    · simp [createOrPatch, hx, hp x hx, hidem]
    · simp [createOrPatch, hx, ih]

theorem createOrPatch_find (α : Type) (p : α → Bool) (fresh : α) (t : α → α)
    (hp : ∀ x, p x = true → p (t x) = true) (hfresh : p (t fresh) = true) (l : List α) :
    ∃ x, (createOrPatch p fresh t l).find? p = some (t x) := by
  induction l with
  | nil => exact ⟨fresh, by simp [createOrPatch, hfresh]⟩
  | cons x rest ih =>
    by_cases hx : p x = true
    · exact ⟨x, by simp [createOrPatch, hx, hp x hx]⟩
    · obtain ⟨y, hy⟩ := ih
      exact ⟨y, by simp [createOrPatch, hx, hy]⟩

theorem demoEnsureOwnerReference_contract (owner : ObjectReference) :
    OwnerReferenceContract demoEnsureOwnerReference owner := by
  have hself : (ownerReferenceTo owner).refersTo owner = true := by
    simp [OwnerReference.refersTo, ownerReferenceTo]
  refine ⟨fun m => rfl, fun m l => rfl, ?_⟩
  intro m
  simp [demoEnsureOwnerReference, List.filter_append, hself, List.filter_filter]

theorem serviceAccountMutator_idem (env : Env) (ref : ObjectReference)
    (hc : OwnerReferenceContract env.ensureOwnerReference ref) (sa : ServiceAccount) :
    serviceAccountMutator env ref (serviceAccountMutator env ref sa)
      = serviceAccountMutator env ref sa := by
  simp [serviceAccountMutator, metaMutator_idem env.ensureOwnerReference ref hc]

theorem roleBindingMutator_idem (env : Env) (ref : ObjectReference) (meta : ObjectMeta)
    (hc : OwnerReferenceContract env.ensureOwnerReference ref) (rb : RoleBinding) :
    roleBindingMutator env ref meta (roleBindingMutator env ref meta rb)
      = roleBindingMutator env ref meta rb := by
  simp [roleBindingMutator, metaMutator_idem env.ensureOwnerReference ref hc]

theorem serviceAccountMutator_named (env : Env) (ref : ObjectReference) (meta : ObjectMeta)
    (hc : OwnerReferenceContract env.ensureOwnerReference ref) (sa : ServiceAccount)
    (h : meta.isNamed sa.ObjectMeta = true) :
    meta.isNamed (serviceAccountMutator env ref sa).ObjectMeta = true := by
  obtain ⟨h1, h2⟩ := metaMutator_named env.ensureOwnerReference ref hc sa.ObjectMeta
  simp only [ObjectMeta.isNamed, serviceAccountMutator, h1, h2] at h ⊢
  exact h

theorem roleBindingMutator_named (env : Env) (ref : ObjectReference) (meta m2 : ObjectMeta)
    (hc : OwnerReferenceContract env.ensureOwnerReference ref) (rb : RoleBinding)
    (h : meta.isNamed rb.ObjectMeta = true) :
    meta.isNamed (roleBindingMutator env ref m2 rb).ObjectMeta = true := by
  obtain ⟨h1, h2⟩ := metaMutator_named env.ensureOwnerReference ref hc rb.ObjectMeta
  simp only [ObjectMeta.isNamed, roleBindingMutator, h1, h2] at h ⊢
  exact h

theorem checkMeta_isNamed (ref : ObjectReference) :
    (checkMeta ref).isNamed (checkMeta ref) = true := by
  simp [ObjectMeta.isNamed]

theorem ensureCheckRBAC_of_ok (env : Env) (ref : ObjectReference) (w : World)
    (hs : env.serviceAccountErr = none) (hb : env.roleBindingErr = none) :
    ensureCheckRBAC env ref w =
      (none, { w with
        serviceAccounts :=
          createOrPatch (fun sa => (checkMeta ref).isNamed sa.ObjectMeta)
            { ObjectMeta := checkMeta ref, Secrets := [] }
            (serviceAccountMutator env ref) w.serviceAccounts,
        roleBindings :=
          createOrPatch (fun rb => (checkMeta ref).isNamed rb.ObjectMeta)
            { ObjectMeta := checkMeta ref,
              RoleRef := { APIGroup := "", Kind := "", Name := "" }, Subjects := [] }
            (roleBindingMutator env ref (checkMeta ref)) w.roleBindings }) := by
  simp [ensureCheckRBAC, CreateOrPatchServiceAccount, CreateOrPatchRoleBinding, hs, hb]

theorem ensureCheckRBAC_errors_of_ok (env : Env) (ref : ObjectReference) (w : World)
    (h : (ensureCheckRBAC env ref w).1 = none) :
    env.serviceAccountErr = none ∧ env.roleBindingErr = none := by
  rw [ensureCheckRBAC_fst] at h
  cases hs : env.serviceAccountErr with
  | some e => simp [hs] at h
  | none => simpa [hs] using h

/-! ### The counter and the mutator handed to PatchRestic -/

theorem wrapInt64_succ (x : Int) (h1 : minInt64 ≤ x) (h2 : x < maxInt64) :
    wrapInt64 (x + 1) = x + 1 := by
  unfold wrapInt64
  unfold minInt64 at h1
  unfold maxInt64 at h2
  omega

theorem wrapInt64_top : wrapInt64 (maxInt64 + 1) = minInt64 := by
  unfold wrapInt64 maxInt64 minInt64
  omega

theorem statusMutator_count (t : Time) (d : String) (r : Restic) :
    (statusMutator t d r).Status.BackupCount = wrapInt64 (r.Status.BackupCount + 1) := by
  by_cases h : r.Status.FirstBackupTime = none <;> simp [statusMutator, h]

theorem mutatorsOf_append (a b : List Effect) :
    mutatorsOf (a ++ b) = mutatorsOf a ++ mutatorsOf b := by
  induction a with
  | nil => rfl
  | cons x a ih => cases x <;> simp [mutatorsOf, ih]

theorem groupTrace_mutators (env : Env) (resource : Restic) (k : Nat) (gs : List FileGroup) :
    mutatorsOf (groupTrace env resource k gs) = [] := by
  induction gs generalizing k with
  | nil => rfl
  | cons fg rest ih =>
    simp only [groupTrace]
    cases env.backupErr k with
    | some e => rfl
    | none =>
      cases env.forgetErr k with
      | some e => rfl
      | none => simpa [mutatorsOf] using ih _

theorem deferredTrace_mutators (env : Env) (opt : Options) (resource : Restic)
    (err : Option Error) (g : List ((String × String) × Int)) :
    mutatorsOf (deferredTrace env opt resource err g) =
      if err = none then
        [statusMutator env.startTime (env.durationString (env.endTime - env.startTime))]
      else [] := by
  unfold deferredTrace
  by_cases hu : opt.PushgatewayURL = "" <;> cases err <;> simp [hu, mutatorsOf]

theorem runResticBackup_mutators (env : Env) (opt : Options) (resource : Restic) (w : World)
    (hp : resource.Spec.Paused = false) :
    mutatorsOf (effectsSince w (runResticBackup env opt resource w).2) =
      if (runResticBackup env opt resource w).1 = none then
        [statusMutator env.startTime (env.durationString (env.endTime - env.startTime))]
      else [] := by
  obtain ⟨g, hg⟩ := runResticBackup_log env opt resource w hp
  rw [effectsSince_append _ _ _ hg, mutatorsOf_append, groupTrace_mutators,
    deferredTrace_mutators, runResticBackup_fst env opt resource w hp]
  simp

theorem deferredTrace_of_success (env : Env) (opt : Options) (resource : Restic)
    (g : List ((String × String) × Int)) :
    ∃ push, deferredTrace env opt resource none g =
        push ++ [Effect.patchRestic resource
          (statusMutator env.startTime (env.durationString (env.endTime - env.startTime)))] ∧
      createJobCallsOf push = [] ∧ patchesOf push = [] := by
  unfold deferredTrace
  by_cases hu : opt.PushgatewayURL = ""
  · exact ⟨[], by simp [hu], rfl, rfl⟩
  · refine ⟨[Effect.push
        { url := opt.PushgatewayURL, success := 1, fail := 0,
          durationTotal := env.endTime - env.startTime, durations := g }], ?_, rfl, rfl⟩
    simp [hu]

/-! ## The claims -/

/-- C1, counterexample: in the run in which every call succeeds, the mutator handed
to `PatchRestic` maps the status whose counter is at the top value of its type
to a status whose counter is not one more. -/
theorem runResticBackup_status_mutator_counterexample :
    ¬ (demoRestic.Spec.Paused = false →
        allSucceed demoEnv demoRestic.Spec.FileGroups.length →
        ∀ f ∈ mutatorsOf (effectsSince demoWorld
                (runResticBackup demoEnv demoOptions demoRestic demoWorld).2),
          (f topRestic).Status.BackupCount = topRestic.Status.BackupCount + 1) := by
  intro h
  have hm := runResticBackup_mutators demoEnv demoOptions demoRestic demoWorld rfl
  have hn : (runResticBackup demoEnv demoOptions demoRestic demoWorld).1 = none := rfl
  rw [hn] at hm
  have h1 := h rfl (fun _ _ => ⟨rfl, rfl⟩)
    (statusMutator demoEnv.startTime
      (demoEnv.durationString (demoEnv.endTime - demoEnv.startTime)))
    (by rw [hm]; simp)
  rw [statusMutator_count] at h1
  have h2 : topRestic.Status.BackupCount = maxInt64 := rfl
  rw [h2, wrapInt64_top] at h1
  unfold minInt64 maxInt64 at h1
  omega

/-- C1, amended: for an unpaused backup spec whose backup and retention calls all
succeed, `runResticBackup` returns no error and hands exactly one mutator to
`PatchRestic`, `statusMutator` with the session start time, as its last step.
That mutator maps any prior status to one with `BackupCount` increased by one
when the counter is below the top value of its 64-bit type (at the top value the
increment wraps to the least value), `LastBackupTime` the session start time,
and `FirstBackupTime` the session start time when it was unset and unchanged
otherwise; over any sequence of successful sessions a `FirstBackupTime` that is
set never changes. -/
theorem runResticBackup_status_mutator (env : Env) (opt : Options) (resource : Restic)
    (w : World) (hp : resource.Spec.Paused = false)
    (hok : allSucceed env resource.Spec.FileGroups.length) :
    (runResticBackup env opt resource w).1 = none ∧
    mutatorsOf (effectsSince w (runResticBackup env opt resource w).2) =
      [statusMutator env.startTime (env.durationString (env.endTime - env.startTime))] ∧
    (∃ w1, (runResticBackup env opt resource w).2 =
        PatchRestic w1 resource
          (statusMutator env.startTime (env.durationString (env.endTime - env.startTime)))) ∧
    (∀ (d : String) (r : Restic),
        (minInt64 ≤ r.Status.BackupCount → r.Status.BackupCount < maxInt64 →
          (statusMutator env.startTime d r).Status.BackupCount = r.Status.BackupCount + 1) ∧
        (r.Status.BackupCount = maxInt64 →
          (statusMutator env.startTime d r).Status.BackupCount = minInt64) ∧
        (statusMutator env.startTime d r).Status.LastBackupTime = some env.startTime ∧
        (r.Status.FirstBackupTime = none →
          (statusMutator env.startTime d r).Status.FirstBackupTime = some env.startTime) ∧
        (r.Status.FirstBackupTime ≠ none →
          (statusMutator env.startTime d r).Status.FirstBackupTime
            = r.Status.FirstBackupTime)) ∧
    (∀ (sessions : List (Time × String)) (r : Restic) (t : Time),
        r.Status.FirstBackupTime = some t →
        (sessions.foldl (fun acc p => statusMutator p.1 p.2 acc) r).Status.FirstBackupTime
          = some t) := by
  have herr : groupError env 0 resource.Spec.FileGroups = none :=
    groupError_of_allSucceed env 0 _ (fun j hj => by simpa using hok j hj)
  have hfst : (runFileGroups env resource 0 resource.Spec.FileGroups
      { world := w, gauges := [] }).1 = none := by
    rw [runFileGroups_fst]; exact herr
  have hnil : (runResticBackup env opt resource w).1 = none := by
    rw [runResticBackup_fst env opt resource w hp]; exact herr
  refine ⟨hnil, ?_, ?_, ?_, ?_⟩
  · rw [runResticBackup_mutators env opt resource w hp, hnil]
    simp
  · simp only [runResticBackup, hp, Bool.false_eq_true, if_false, runDeferred, hfst, if_true]
    exact ⟨_, rfl⟩
  · intro d r
    refine ⟨?_, ?_, ?_, ?_, ?_⟩
    · intro h1 h2
      rw [statusMutator_count, wrapInt64_succ _ h1 h2]
    · intro h1
      rw [statusMutator_count, h1, wrapInt64_top]
    · by_cases h : r.Status.FirstBackupTime = none <;> simp [statusMutator, h]
    · intro h; simp [statusMutator, h]
    · intro h; simp [statusMutator, h]
  · exact statusMutator_first_fixed

/-- Witness of C1 (amended): the run on `/data` and `/logs` in which every call
succeeds, on a resource with four earlier backups. -/
theorem runResticBackup_status_mutator_witness :
    demoRestic.Spec.Paused = false ∧
    allSucceed demoEnv demoRestic.Spec.FileGroups.length ∧
    (runResticBackup demoEnv demoOptions demoRestic demoWorld).1 = none ∧
    mutatorsOf (effectsSince demoWorld
        (runResticBackup demoEnv demoOptions demoRestic demoWorld).2) =
      [statusMutator demoEnv.startTime
        (demoEnv.durationString (demoEnv.endTime - demoEnv.startTime))] ∧
    (statusMutator demoEnv.startTime "60ns" demoRestic).Status.BackupCount
      = demoRestic.Status.BackupCount + 1 :=
  ⟨rfl, fun _ _ => ⟨rfl, rfl⟩,
   (runResticBackup_status_mutator demoEnv demoOptions demoRestic demoWorld rfl
      (fun _ _ => ⟨rfl, rfl⟩)).1,
   (runResticBackup_status_mutator demoEnv demoOptions demoRestic demoWorld rfl
      (fun _ _ => ⟨rfl, rfl⟩)).2.1,
   ((runResticBackup_status_mutator demoEnv demoOptions demoRestic demoWorld rfl
      (fun _ _ => ⟨rfl, rfl⟩)).2.2.2.1 "60ns" demoRestic).1 (by decide) (by decide)⟩

/-- C2: for an unpaused backup spec, the archiving calls `runResticBackup` makes
are the planned calls (backup, forget per file group, in order) up to and
including the first one that fails, all of them when none fails, and it returns
the error of that call (`nil` when none fails).  In particular, when the first
failure is the backup of the group at position `k`, the calls are the planned
calls of groups before `k` followed by that backup alone; when it is the forget
of the group at position `k`, they are the planned calls of the groups up to
and including `k`. -/
theorem runResticBackup_archive_calls (env : Env) (opt : Options) (resource : Restic)
    (w : World) (hp : resource.Spec.Paused = false) :
    archiveCallsOf (effectsSince w (runResticBackup env opt resource w).2) =
      (plannedCalls resource.Spec.FileGroups).take
        (successesBeforeError
          (plannedAnswers env 0 resource.Spec.FileGroups.length) + 1) ∧
    (runResticBackup env opt resource w).1 =
      firstError (plannedAnswers env 0 resource.Spec.FileGroups.length) ∧
    (allSucceed env resource.Spec.FileGroups.length →
      archiveCallsOf (effectsSince w (runResticBackup env opt resource w).2) =
        plannedCalls resource.Spec.FileGroups ∧
      (runResticBackup env opt resource w).1 = none) ∧
    (∀ (k : Nat) (fg : FileGroup) (e : Error),
      resource.Spec.FileGroups.get? k = some fg → allSucceed env k →
      env.backupErr k = some e →
      archiveCallsOf (effectsSince w (runResticBackup env opt resource w).2) =
        plannedCalls (resource.Spec.FileGroups.take k) ++ [Effect.backup fg] ∧
      (runResticBackup env opt resource w).1 = some e) ∧
    (∀ (k : Nat) (e : Error),
      k < resource.Spec.FileGroups.length → allSucceed env k →
      env.backupErr k = none → env.forgetErr k = some e →
      archiveCallsOf (effectsSince w (runResticBackup env opt resource w).2) =
        plannedCalls (resource.Spec.FileGroups.take (k + 1)) ∧
      (runResticBackup env opt resource w).1 = some e) := by
  obtain ⟨g, hg⟩ := runResticBackup_log env opt resource w hp
  have hcalls : archiveCallsOf (effectsSince w (runResticBackup env opt resource w).2) =
      (plannedCalls resource.Spec.FileGroups).take
        (successesBeforeError
          (plannedAnswers env 0 resource.Spec.FileGroups.length) + 1) := by
    rw [effectsSince_append _ _ _ hg, archiveCallsOf_append, deferredTrace_archiveCalls,
      archiveCalls_groupTrace]
    simp
  have herr : (runResticBackup env opt resource w).1 =
      firstError (plannedAnswers env 0 resource.Spec.FileGroups.length) := by
    rw [runResticBackup_fst env opt resource w hp, groupError_eq_firstError]
  refine ⟨hcalls, herr, ?_, ?_, ?_⟩
  · intro hall
    have h0 : ∀ j, j < resource.Spec.FileGroups.length →
        env.backupErr (0 + j) = none ∧ env.forgetErr (0 + j) = none :=
      fun j hj => by simpa using hall j hj
    refine ⟨?_, ?_⟩
    · rw [hcalls]; exact take_plannedCalls_of_allSucceed env 0 _ h0
    · rw [runResticBackup_fst env opt resource w hp]
      exact groupError_of_allSucceed env 0 _ h0
  · intro k fg e hfg hall hb
    have := take_plannedCalls_backup_fails env 0 k resource.Spec.FileGroups fg e hfg
      (fun j hj => by simpa using hall j hj) (by simpa using hb)
    exact ⟨hcalls.trans this.1, herr.trans this.2⟩
  · intro k e hk hall hb hf
    have := take_plannedCalls_forget_fails env 0 k resource.Spec.FileGroups e hk
      (fun j hj => by simpa using hall j hj) (by simpa using hb) (by simpa using hf)
    exact ⟨hcalls.trans this.1, herr.trans this.2⟩

/-- Witness of C2: when the retention of `/data` fails, the calls are the backup
and the forget of `/data` and the error is the one of that forget. -/
theorem runResticBackup_archive_calls_witness :
    demoRestic.Spec.Paused = false ∧
    archiveCallsOf (effectsSince demoWorld
        (runResticBackup failingForgetEnv demoOptions demoRestic demoWorld).2) =
      plannedCalls (demoRestic.Spec.FileGroups.take (0 + 1)) ∧
    (runResticBackup failingForgetEnv demoOptions demoRestic demoWorld).1
      = some "exit status 1" :=
  ⟨rfl,
   (runResticBackup_archive_calls failingForgetEnv demoOptions demoRestic demoWorld rfl).2.2.2.2
      0 "exit status 1" (by decide) (fun _ hk => absurd hk (Nat.not_lt_zero _)) rfl rfl⟩

/-- C3: for an unpaused backup spec, `runResticBackup` applies the status patch
exactly once when it returns no error, and applies none and leaves the stored
resource as it was when it returns an error. -/
theorem runResticBackup_patch_iff_success (env : Env) (opt : Options) (resource : Restic)
    (w : World) (hp : resource.Spec.Paused = false) :
    ((runResticBackup env opt resource w).1 = none →
      patchesOf (effectsSince w (runResticBackup env opt resource w).2) =
        [(resource, statusMutator env.startTime
            (env.durationString (env.endTime - env.startTime)) resource)] ∧
      (runResticBackup env opt resource w).2.restic =
        some (statusMutator env.startTime
                (env.durationString (env.endTime - env.startTime)) resource)) ∧
    (∀ e, (runResticBackup env opt resource w).1 = some e →
      patchesOf (effectsSince w (runResticBackup env opt resource w).2) = [] ∧
      (runResticBackup env opt resource w).2.restic = w.restic) := by
  have h1 := runResticBackup_patches env opt resource w hp
  have h2 := runResticBackup_restic env opt resource w hp
  refine ⟨fun h => ?_, fun e h => ?_⟩
  · rw [h1, h2]; simp [h]
  · rw [h1, h2]; simp [h]

/-- Witness of C3: the patch is applied once in the run in which every call
succeeds, and not at all when the backup of `/data` fails. -/
theorem runResticBackup_patch_iff_success_witness :
    demoRestic.Spec.Paused = false ∧
    (patchesOf (effectsSince demoWorld
        (runResticBackup demoEnv demoOptions demoRestic demoWorld).2) =
      [(demoRestic, statusMutator demoEnv.startTime
          (demoEnv.durationString (demoEnv.endTime - demoEnv.startTime)) demoRestic)] ∧
     (runResticBackup demoEnv demoOptions demoRestic demoWorld).2.restic =
      some (statusMutator demoEnv.startTime
              (demoEnv.durationString (demoEnv.endTime - demoEnv.startTime)) demoRestic)) ∧
    (patchesOf (effectsSince demoWorld
        (runResticBackup failingBackupEnv demoOptions demoRestic demoWorld).2) = [] ∧
     (runResticBackup failingBackupEnv demoOptions demoRestic demoWorld).2.restic
       = demoWorld.restic) :=
  ⟨rfl,
   (runResticBackup_patch_iff_success demoEnv demoOptions demoRestic demoWorld rfl).1 rfl,
   (runResticBackup_patch_iff_success failingBackupEnv demoOptions demoRestic demoWorld rfl).2
      "exit status 1" rfl⟩

/-- C4: for a paused backup spec, whatever its file groups, `runResticBackup`
returns no error and leaves the world as it was: no archiving call, no metrics
push, no status patch, no event. -/
theorem runResticBackup_paused (env : Env) (opt : Options) (resource : Restic) (w : World)
    (hp : resource.Spec.Paused = true) :
    (runResticBackup env opt resource w).1 = none ∧
    (runResticBackup env opt resource w).2 = w ∧
    archiveCallsOf (effectsSince w (runResticBackup env opt resource w).2) = [] ∧
    pushesOf (effectsSince w (runResticBackup env opt resource w).2) = [] ∧
    patchesOf (effectsSince w (runResticBackup env opt resource w).2) = [] ∧
    eventsOf (effectsSince w (runResticBackup env opt resource w).2) = [] := by
  have h : runResticBackup env opt resource w = (none, w) := by
    simp [runResticBackup, hp]
  simp [h, effectsSince, archiveCallsOf, pushesOf, patchesOf, eventsOf]

/-- Witness of C4: the paused resource with its two file groups. -/
theorem runResticBackup_paused_witness :
    pausedRestic.Spec.Paused = true ∧
    pausedRestic.Spec.FileGroups.length = 2 ∧
    (runResticBackup demoEnv demoOptions pausedRestic pausedWorld).1 = none ∧
    (runResticBackup demoEnv demoOptions pausedRestic pausedWorld).2 = pausedWorld :=
  ⟨rfl, rfl,
   (runResticBackup_paused demoEnv demoOptions pausedRestic pausedWorld rfl).1,
   (runResticBackup_paused demoEnv demoOptions pausedRestic pausedWorld rfl).2.1⟩

/-- C5, counterexample: on the paused resource with two file groups the check job
creation call is made although no file group was backed up. -/
theorem Backup_check_job_paused_counterexample :
    ¬ (setup demoEnv demoOptions pausedWorld = (some pausedRestic, none) →
        (createJobCallsOf (effectsSince pausedWorld (Backup demoEnv demoOptions pausedWorld).2)
            ≠ [] ↔
          archivedAll demoEnv pausedRestic
            (effectsSince pausedWorld (Backup demoEnv demoOptions pausedWorld).2))) := by
  intro h
  have hs : setup demoEnv demoOptions pausedWorld = (some pausedRestic, none) := rfl
  have heff := (Backup_effects_paused demoEnv demoOptions pausedWorld pausedRestic hs rfl).2.1
  have h1 := h hs
  rw [heff, checkJobTrace_createJobCalls] at h1
  have h2 := (h1.mp (by simp)).1
  rw [checkJobTrace_archiveCalls] at h2
  simp [plannedCalls, pausedRestic, demoRestic] at h2

/-- C5, amended: in a run of `Backup` whose setup succeeds, the check job creation
call is made if and only if the spec is paused or every declared file group was
backed up and retained successfully in that run, that is, if and only if
`runResticBackup` returns no error; it is made at most once, with the job
`Backup` built. -/
theorem Backup_check_job_iff (env : Env) (opt : Options) (w : World) (r : Restic)
    (h : setup env opt w = (some r, none)) :
    (createJobCallsOf (effectsSince w (Backup env opt w).2) ≠ [] ↔
      (r.Spec.Paused = true ∨ archivedAll env r (effectsSince w (Backup env opt w).2))) ∧
    (createJobCallsOf (effectsSince w (Backup env opt w).2) ≠ [] ↔
      (runResticBackup env opt r w).1 = none) ∧
    (createJobCallsOf (effectsSince w (Backup env opt w).2) = [] ∨
      createJobCallsOf (effectsSince w (Backup env opt w).2) = [checkJobOf env opt r]) := by
  by_cases hp : r.Spec.Paused = true
  · have heff := (Backup_effects_paused env opt w r h hp).2.1
    rw [heff, checkJobTrace_createJobCalls]
    simp [hp, runResticBackup]
  · have hp2 : r.Spec.Paused = false := by simpa using hp
    rw [runResticBackup_fst env opt r w hp2]
    cases he : groupError env 0 r.Spec.FileGroups with
    | none =>
      obtain ⟨g, hg⟩ := (Backup_effects_run_ok env opt w r h hp2 he).2.1
      have hall : allSucceed env r.Spec.FileGroups.length := fun j hj => by
        simpa using (groupError_none_iff env 0 _).mp he j hj
      have hcalls : archiveCallsOf (effectsSince w (Backup env opt w).2) =
          plannedCalls r.Spec.FileGroups := by
        rw [hg, archiveCallsOf_append, archiveCallsOf_append, deferredTrace_archiveCalls,
          checkJobTrace_archiveCalls, archiveCalls_groupTrace]
        simpa using take_plannedCalls_of_allSucceed env 0 r.Spec.FileGroups
          (fun j hj => by simpa using hall j hj)
      have hjobs : createJobCallsOf (effectsSince w (Backup env opt w).2) =
          [checkJobOf env opt r] := by
        rw [hg, createJobCallsOf_append, createJobCallsOf_append, groupTrace_createJobCalls,
          deferredTrace_createJobCalls, checkJobTrace_createJobCalls]
        simp
      rw [hjobs]
      simp [archivedAll, hcalls, hall]
    | some e =>
      obtain ⟨g, hg⟩ := (Backup_effects_run_error env opt w r e h hp2 he).2.1
      have hjobs : createJobCallsOf (effectsSince w (Backup env opt w).2) = [] := by
        rw [hg, createJobCallsOf_append, groupTrace_createJobCalls,
          deferredTrace_createJobCalls]
        simp
      rw [hjobs]
      have hnot : ¬ allSucceed env r.Spec.FileGroups.length := by
        intro hall
        have := groupError_of_allSucceed env 0 r.Spec.FileGroups
          (fun j hj => by simpa using hall j hj)
        rw [he] at this
        exact absurd this (by simp)
      simp [archivedAll, hp, hnot]

/-- Witness of C5 (amended): the paused resource, on which the call is made. -/
theorem Backup_check_job_iff_witness :
    setup demoEnv demoOptions pausedWorld = (some pausedRestic, none) ∧
    (createJobCallsOf (effectsSince pausedWorld (Backup demoEnv demoOptions pausedWorld).2)
        ≠ [] ↔
      (pausedRestic.Spec.Paused = true ∨
        archivedAll demoEnv pausedRestic
          (effectsSince pausedWorld (Backup demoEnv demoOptions pausedWorld).2))) :=
  ⟨rfl, (Backup_check_job_iff demoEnv demoOptions pausedWorld pausedRestic rfl).1⟩

/-- C6, counterexample: when every archiving call succeeds and the job creation
call fails, `Backup` returns an error although the status patch was applied. -/
theorem Backup_error_status_counterexample :
    ¬ ((Backup failingJobEnv demoOptions demoWorld).1 ≠ none →
        patchesOf (effectsSince demoWorld (Backup failingJobEnv demoOptions demoWorld).2) = [] ∧
        (Backup failingJobEnv demoOptions demoWorld).2.restic = demoWorld.restic) := by
  intro h
  have hs : setup failingJobEnv demoOptions demoWorld = (some demoRestic, none) := rfl
  have he : groupError failingJobEnv 0 demoRestic.Spec.FileGroups = none := rfl
  have hb := Backup_effects_run_ok failingJobEnv demoOptions demoWorld demoRestic hs rfl he
  have h1 := (h (by rw [hb.1]; simp [checkJobError, failingJobEnv])).1
  obtain ⟨g, hg⟩ := hb.2.1
  rw [hg, patchesOf_append, patchesOf_append, groupTrace_patches, deferredTrace_patches,
    checkJobTrace_patches] at h1
  simp at h1

/-- C6, amended: a run of `Backup` that returns an error from setup, from a backup
call or from a retention call applies no status patch and leaves the stored
resource as it was, and so does every run on a paused spec.  A run on an
unpaused spec whose backup and retention calls all succeed applies the status
patch exactly once, before the check job is created: in the log of the run the
patch comes after a part without a job creation call and before a part that
holds the one job creation call and no patch; the patch stays applied when the
job creation or the access-control provisioning then fails. -/
theorem Backup_status_by_stage (env : Env) (opt : Options) (w : World) :
    (∀ r e, setup env opt w = (r, some e) →
      (Backup env opt w).1 ≠ none ∧
      patchesOf (effectsSince w (Backup env opt w).2) = [] ∧
      (Backup env opt w).2.restic = w.restic) ∧
    (∀ r e, setup env opt w = (some r, none) → (runResticBackup env opt r w).1 = some e →
      (Backup env opt w).1 ≠ none ∧
      patchesOf (effectsSince w (Backup env opt w).2) = [] ∧
      (Backup env opt w).2.restic = w.restic) ∧
    (∀ r, setup env opt w = (some r, none) → r.Spec.Paused = true →
      patchesOf (effectsSince w (Backup env opt w).2) = [] ∧
      (Backup env opt w).2.restic = w.restic) ∧
    (∀ r, setup env opt w = (some r, none) → r.Spec.Paused = false →
      (runResticBackup env opt r w).1 = none →
      (Backup env opt w).1 = checkJobError env opt r ∧
      patchesOf (effectsSince w (Backup env opt w).2) =
        [(r, statusMutator env.startTime
               (env.durationString (env.endTime - env.startTime)) r)] ∧
      (Backup env opt w).2.restic =
        some (statusMutator env.startTime
                (env.durationString (env.endTime - env.startTime)) r) ∧
      (∃ pre post, effectsSince w (Backup env opt w).2 =
          pre ++ Effect.patchRestic r
            (statusMutator env.startTime
              (env.durationString (env.endTime - env.startTime))) :: post ∧
        createJobCallsOf pre = [] ∧ patchesOf pre = [] ∧
        createJobCallsOf post = [checkJobOf env opt r] ∧ patchesOf post = [])) := by
  refine ⟨?_, ?_, ?_, ?_⟩
  · intro r e h
    cases r with
    | none =>
      rw [Backup_of_setup_nil env opt w e h]
      simp [effectsSince_self, patchesOf]
    | some r =>
      obtain ⟨h1, h2, h3⟩ := Backup_effects_setup_error env opt w r e h
      rw [h1, h2]
      exact ⟨by simp, rfl, h3⟩
  · intro r e h he
    by_cases hp : r.Spec.Paused = true
    · simp [runResticBackup, hp] at he
    · have hp2 : r.Spec.Paused = false := by simpa using hp
      rw [runResticBackup_fst env opt r w hp2] at he
      obtain ⟨h1, ⟨g, hg⟩, h3⟩ := Backup_effects_run_error env opt w r e h hp2 he
      rw [h1, hg, patchesOf_append, groupTrace_patches, deferredTrace_patches]
      exact ⟨by simp, by simp, h3⟩
  · intro r h hp
    obtain ⟨_, h2, h3⟩ := Backup_effects_paused env opt w r h hp
    rw [h2, checkJobTrace_patches]
    exact ⟨rfl, h3⟩
  · intro r h hp he
    rw [runResticBackup_fst env opt r w hp] at he
    obtain ⟨h1, ⟨g, hg⟩, h3⟩ := Backup_effects_run_ok env opt w r h hp he
    refine ⟨h1, ?_, h3, ?_⟩
    · rw [hg, patchesOf_append, patchesOf_append, groupTrace_patches, deferredTrace_patches,
        checkJobTrace_patches]
      simp
    · obtain ⟨push, hpush, hp1, hp2⟩ := deferredTrace_of_success env opt r g
      refine ⟨groupTrace env r 0 r.Spec.FileGroups ++ push, checkJobTrace env opt r, ?_, ?_, ?_,
        checkJobTrace_createJobCalls env opt r, checkJobTrace_patches env opt r⟩
      · rw [hg, hpush]
        simp
      · rw [createJobCallsOf_append, groupTrace_createJobCalls, hp1]
        rfl
      · rw [patchesOf_append, groupTrace_patches, hp2]
        rfl

/-- Witness of C6 (amended): the run in which the job creation call fails keeps
the status patch, which precedes the job creation call in the log. -/
theorem Backup_status_by_stage_witness :
    (Backup failingJobEnv demoOptions demoWorld).1 = checkJobError failingJobEnv demoOptions demoRestic ∧
    patchesOf (effectsSince demoWorld (Backup failingJobEnv demoOptions demoWorld).2) =
      [(demoRestic, statusMutator failingJobEnv.startTime
          (failingJobEnv.durationString (failingJobEnv.endTime - failingJobEnv.startTime))
          demoRestic)] ∧
    (∃ pre post, effectsSince demoWorld (Backup failingJobEnv demoOptions demoWorld).2 =
        pre ++ Effect.patchRestic demoRestic
          (statusMutator failingJobEnv.startTime
            (failingJobEnv.durationString
              (failingJobEnv.endTime - failingJobEnv.startTime))) :: post ∧
      createJobCallsOf pre = [] ∧ patchesOf pre = [] ∧
      createJobCallsOf post = [checkJobOf failingJobEnv demoOptions demoRestic] ∧
      patchesOf post = []) :=
  ⟨((Backup_status_by_stage failingJobEnv demoOptions demoWorld).2.2.2 demoRestic rfl rfl rfl).1,
   ((Backup_status_by_stage failingJobEnv demoOptions demoWorld).2.2.2 demoRestic rfl rfl rfl).2.1,
   ((Backup_status_by_stage failingJobEnv demoOptions demoWorld).2.2.2 demoRestic rfl rfl rfl).2.2.2⟩

/-- C7, counterexample: with access control enabled, when the reference of the
created job cannot be resolved `Backup` returns an error after the resource was
fetched and no Warning event was emitted. -/
theorem Backup_error_warning_counterexample :
    ¬ ((setup noReferenceEnv rbacOptions demoWorld).1 = some demoRestic →
        (Backup noReferenceEnv rbacOptions demoWorld).1 ≠ none →
        (warningsOf (eventsOf
          (effectsSince demoWorld (Backup noReferenceEnv rbacOptions demoWorld).2))).length
          = 1) := by
  intro h
  have hs : setup noReferenceEnv rbacOptions demoWorld = (some demoRestic, none) := rfl
  have he : groupError noReferenceEnv 0 demoRestic.Spec.FileGroups = none := rfl
  have hb := Backup_effects_run_ok noReferenceEnv rbacOptions demoWorld demoRestic hs rfl he
  have hjob : noReferenceEnv.createJob (checkJobOf noReferenceEnv rbacOptions demoRestic) =
      .ok { (checkJobOf noReferenceEnv rbacOptions demoRestic) with
            ObjectMeta := { (checkJobOf noReferenceEnv rbacOptions demoRestic).ObjectMeta with
                            UID := "j-1" } } := rfl
  have hE : (Backup noReferenceEnv rbacOptions demoWorld).1 = some "kind not registered" := rfl
  have h1 := h (by rw [hs]) (by rw [hE]; simp)
  obtain ⟨g, hg⟩ := hb.2.1
  rw [hg, eventsOf_append, eventsOf_append, deferredTrace_events, warningsOf_append,
    warningsOf_append, groupTrace_warnings_of_success _ _ _ _ he,
    checkJobTrace_warnings_of_created _ _ _ _ hjob] at h1
  simp [warningsOf] at h1

/-- C7, amended: in a run of `Backup` that returns an error after the backup
resource was fetched, every event emitted is attached to the resource's object
reference; when the error comes from setup, from a backup call, from a retention
call or from the job creation call, exactly one Warning event was emitted; when
the check job was created and the error comes from the resolution of its
reference or from ensuring its service account or role binding, no Warning
event was emitted. -/
theorem Backup_error_warning_events (env : Env) (opt : Options) (w : World) (r : Restic)
    (e : Error) (hr : (setup env opt w).1 = some r) (he : (Backup env opt w).1 = some e) :
    (∀ ev ∈ eventsOf (effectsSince w (Backup env opt w).2), ev.ref = r.ObjectReference) ∧
    ((∃ job, setup env opt w = (some r, none) ∧ (runResticBackup env opt r w).1 = none ∧
        env.createJob (checkJobOf env opt r) = .ok job) →
      warningsOf (eventsOf (effectsSince w (Backup env opt w).2)) = []) ∧
    (¬ (∃ job, setup env opt w = (some r, none) ∧ (runResticBackup env opt r w).1 = none ∧
        env.createJob (checkJobOf env opt r) = .ok job) →
      ∃ ev, warningsOf (eventsOf (effectsSince w (Backup env opt w).2)) = [ev] ∧
        ev.ref = r.ObjectReference ∧ ev.type = .Warning) := by
  cases hs2 : (setup env opt w).2 with
  | some e1 =>
    have hs : setup env opt w = (some r, some e1) := Prod.ext hr hs2
    obtain ⟨_, h2, _⟩ := Backup_effects_setup_error env opt w r e1 hs
    rw [h2]
    refine ⟨by simp [eventsOf], ?_, ?_⟩
    · rintro ⟨job, h, _⟩
      rw [hs] at h
      simp at h
    · intro _
      exact ⟨_, rfl, rfl, rfl⟩
  | none =>
    have hs : setup env opt w = (some r, none) := Prod.ext hr hs2
    have hcheck : ∀ t : List Effect,
        eventsOf t = eventsOf (checkJobTrace env opt r) ∨
          (∃ pre, eventsOf t = pre ++ eventsOf (checkJobTrace env opt r) ∧
            warningsOf pre = [] ∧ ∀ ev ∈ pre, ev.ref = r.ObjectReference) →
        checkJobError env opt r = some e →
        (runResticBackup env opt r w).1 = none →
        (∀ ev ∈ eventsOf t, ev.ref = r.ObjectReference) ∧
        ((∃ job, setup env opt w = (some r, none) ∧ (runResticBackup env opt r w).1 = none ∧
            env.createJob (checkJobOf env opt r) = .ok job) →
          warningsOf (eventsOf t) = []) ∧
        (¬ (∃ job, setup env opt w = (some r, none) ∧ (runResticBackup env opt r w).1 = none ∧
            env.createJob (checkJobOf env opt r) = .ok job) →
          ∃ ev, warningsOf (eventsOf t) = [ev] ∧
            ev.ref = r.ObjectReference ∧ ev.type = .Warning) := by
      intro t ht _ hrun
      have hpre : ∃ pre, eventsOf t = pre ++ eventsOf (checkJobTrace env opt r) ∧
            warningsOf pre = [] ∧ ∀ ev ∈ pre, ev.ref = r.ObjectReference := by
        rcases ht with ht | ht
        · exact ⟨[], by simpa using ht, rfl, by simp⟩
        · exact ht
      obtain ⟨pre, hev, hw, href⟩ := hpre
      rw [hev, warningsOf_append, hw]
      refine ⟨?_, ?_, ?_⟩
      · intro ev hmem
        rcases List.mem_append.mp hmem with hm | hm
        · exact href ev hm
        · exact (checkJobTrace_events_reason env opt r ev hm).1
      · rintro ⟨job, _, _, hjob⟩
        simpa using checkJobTrace_warnings_of_created env opt r job hjob
      · intro hno
        cases hc : env.createJob (checkJobOf env opt r) with
        | ok job => exact absurd ⟨job, hs, hrun, hc⟩ hno
        | error e2 =>
          rw [checkJobTrace_warnings_of_error env opt r e2 hc]
          exact ⟨_, rfl, rfl, rfl⟩
    by_cases hp : r.Spec.Paused = true
    · obtain ⟨h1, h2, _⟩ := Backup_effects_paused env opt w r hs hp
      rw [h2]
      exact hcheck _ (Or.inl rfl) (by rw [← h1]; exact he) (by simp [runResticBackup, hp])
    · have hp2 : r.Spec.Paused = false := by simpa using hp
      cases hg : groupError env 0 r.Spec.FileGroups with
      | some e1 =>
        obtain ⟨_, ⟨g, h2⟩, _⟩ := Backup_effects_run_error env opt w r e1 hs hp2 hg
        obtain ⟨ev, hw, href, hty, _⟩ := groupTrace_warnings_of_error env r 0 _ e1 hg
        rw [h2, eventsOf_append, deferredTrace_events, List.append_nil]
        refine ⟨fun ev hm => (groupTrace_events_reason env r 0 _ ev hm).1, ?_, ?_⟩
        · rintro ⟨job, _, hrun, _⟩
          rw [runResticBackup_fst env opt r w hp2, hg] at hrun
          simp at hrun
        · intro _
          exact ⟨ev, hw, href, hty⟩
      | none =>
        obtain ⟨h1, ⟨g, h2⟩, _⟩ := Backup_effects_run_ok env opt w r hs hp2 hg
        rw [h2]
        refine hcheck _ (Or.inr ⟨eventsOf (groupTrace env r 0 r.Spec.FileGroups), ?_,
          groupTrace_warnings_of_success env r 0 _ hg,
          fun ev hm => (groupTrace_events_reason env r 0 _ ev hm).1⟩)
          (by rw [← h1]; exact he)
          (by rw [runResticBackup_fst env opt r w hp2]; exact hg)
        rw [eventsOf_append, eventsOf_append, deferredTrace_events, List.append_nil]

/-- Witness of C7 (amended): the run in which the job creation call fails emits
exactly one Warning event. -/
theorem Backup_error_warning_events_witness :
    (setup failingJobEnv demoOptions demoWorld).1 = some demoRestic ∧
    (Backup failingJobEnv demoOptions demoWorld).1 =
      some "failed to create check job, reason: forbidden" ∧
    ∀ ev ∈ eventsOf (effectsSince demoWorld (Backup failingJobEnv demoOptions demoWorld).2),
      ev.ref = demoRestic.ObjectReference :=
  ⟨rfl, rfl,
   (Backup_error_warning_events failingJobEnv demoOptions demoWorld demoRestic
      "failed to create check job, reason: forbidden" rfl rfl).1⟩

/-- C8: `setup` returns a nil resource exactly when it fails before the backup
resource is fetched (scratch directory, probe write, or the `Get`), and then
with an error; once the resource is fetched it is returned, together with the
error when validation, the credential fetch, the environment setup or the
repository init fails.  `Backup` emits a failed-setup Warning event if and only
if `setup` failed after the fetch, and when `setup` failed before, it returns
the wrapped error and leaves the world as it was, so no event is emitted. -/
theorem setup_resource_and_failed_setup_event (env : Env) (opt : Options) (w : World) :
    ((setup env opt w).1 = none ↔
      (env.mkdirAll ≠ none ∨ env.writeFile ≠ none ∨ ∃ e, getRestic env opt w = .error e)) ∧
    ((setup env opt w).1 = none → (setup env opt w).2 ≠ none) ∧
    (∀ r, env.mkdirAll = none → env.writeFile = none → getRestic env opt w = .ok r →
      (setup env opt w).1 = some r ∧
      (∀ e, env.isValid r = some e → setup env opt w = (some r, some e)) ∧
      (∀ e, env.isValid r = none →
        env.getSecret r.Namespace r.Spec.Backend.StorageSecretName = .error e →
        setup env opt w = (some r, some e)) ∧
      (∀ sec e, env.isValid r = none →
        env.getSecret r.Namespace r.Spec.Backend.StorageSecretName = .ok sec →
        env.setupEnv r.Spec.Backend sec opt.SmartPrefix = some e →
        setup env opt w = (some r, some e)) ∧
      (∀ sec e, env.isValid r = none →
        env.getSecret r.Namespace r.Spec.Backend.StorageSecretName = .ok sec →
        env.setupEnv r.Spec.Backend sec opt.SmartPrefix = none →
        env.initRepository = some e →
        setup env opt w = (some r, some e))) ∧
    ((∃ ev ∈ eventsOf (effectsSince w (Backup env opt w).2), ev.reason = .FailedSetup) ↔
      ∃ r e, setup env opt w = (some r, some e)) ∧
    (∀ r e, setup env opt w = (some r, some e) →
      (Backup env opt w).1 = some ("failed to setup backup. Error: " ++ e) ∧
      eventsOf (effectsSince w (Backup env opt w).2) =
        [{ component := BackupEventComponent, ref := r.ObjectReference,
           type := .Warning, reason := .FailedSetup,
           message := "failed to setup backup. Error: " ++ e }]) ∧
    (∀ e, setup env opt w = (none, some e) →
      Backup env opt w = (some ("failed to setup backup. Error: " ++ e), w) ∧
      eventsOf (effectsSince w (Backup env opt w).2) = []) := by
  have hnil : (setup env opt w).1 = none ↔
      (env.mkdirAll ≠ none ∨ env.writeFile ≠ none ∨ ∃ e, getRestic env opt w = .error e) := by
    constructor
    · intro h
      by_contra hcon
      simp only [not_or, not_not, not_exists] at hcon
      obtain ⟨h1, h2, h3⟩ := hcon
      cases hg : getRestic env opt w with
      | error e => exact h3 e hg
      | ok r =>
        have := setup_of_fetched env opt w r h1 h2 hg
        rw [h] at this
        simp at this
    · intro h
      cases hs : (setup env opt w).1 with
      | none => rfl
      | some r =>
        obtain ⟨h1, h2, h3⟩ := setup_fetched env opt w r hs
        rcases h with h | h | ⟨e, h⟩
        · exact absurd h1 h
        · exact absurd h2 h
        · rw [h3] at h
          simp at h
  refine ⟨hnil, ?_, ?_, ?_, ?_, ?_⟩
  · intro h hok
    obtain ⟨r, hr⟩ := setup_resource_of_ok env opt w hok
    rw [hr] at h
    simp at h
  · intro r h1 h2 h3
    have hs := setup_after_fetch env opt w r h1 h2 h3
    refine ⟨setup_of_fetched env opt w r h1 h2 h3, ?_, ?_, ?_, ?_⟩
    · intro e hv
      rw [hs, hv]
    · intro e hv hsec
      rw [hs, hv, hsec]
    · intro sec e hv hsec hse
      rw [hs, hv]
      simp only [hsec, hse]
    · intro sec e hv hsec hse hi
      rw [hs, hv]
      simp only [hsec, hse, hi]
  · constructor
    · rintro ⟨ev, hm, hreason⟩
      cases hs1 : (setup env opt w).1 with
      | none =>
        cases hs2 : (setup env opt w).2 with
        | none =>
          obtain ⟨r, hr⟩ := setup_resource_of_ok env opt w hs2
          rw [hr] at hs1
          simp at hs1
        | some e =>
          have hs : setup env opt w = (none, some e) := Prod.ext hs1 hs2
          rw [Backup_of_setup_nil env opt w e hs, effectsSince_self] at hm
          simp [eventsOf] at hm
      | some r =>
        cases hs2 : (setup env opt w).2 with
        | none =>
          have hs : setup env opt w = (some r, none) := Prod.ext hs1 hs2
          exact absurd hreason (Backup_events_of_setup_ok env opt w r hs ev hm).2
        | some e => exact ⟨r, e, Prod.ext hs1 hs2⟩
    · rintro ⟨r, e, hs⟩
      rw [(Backup_effects_setup_error env opt w r e hs).2.1]
      exact ⟨{ component := BackupEventComponent, ref := r.ObjectReference,
               type := .Warning, reason := .FailedSetup,
               message := "failed to setup backup. Error: " ++ e },
             by simp [eventsOf], rfl⟩
  · intro r e hs
    obtain ⟨h1, h2, _⟩ := Backup_effects_setup_error env opt w r e hs
    rw [h1, h2]
    exact ⟨rfl, rfl⟩
  · intro e hs
    rw [Backup_of_setup_nil env opt w e hs, effectsSince_self]
    exact ⟨rfl, rfl⟩

/-- Witness of C8: an invalid resource is returned with the validation error and
`Backup` emits the failed-setup Warning event. -/
theorem setup_resource_and_failed_setup_event_witness :
    setup invalidEnv demoOptions demoWorld = (some demoRestic, some "missing file groups") ∧
    eventsOf (effectsSince demoWorld (Backup invalidEnv demoOptions demoWorld).2) =
      [{ component := BackupEventComponent, ref := demoRestic.ObjectReference,
         type := .Warning, reason := .FailedSetup,
         message := "failed to setup backup. Error: " ++ "missing file groups" }] :=
  ⟨rfl,
   ((setup_resource_and_failed_setup_event invalidEnv demoOptions demoWorld).2.2.2.2.1
      demoRestic "missing file groups" rfl).2⟩

/-- C10, counterexample: on the resource whose counter is at the top value of its
type, the run in which every call and the provisioning succeed does not leave a
counter that is one more than before. -/
theorem Backup_scenarios_counterexample :
    ¬ (setup demoEnv demoOptions topWorld = (some topRestic, none) →
        topRestic.Spec.Paused = false →
        allSucceed demoEnv topRestic.Spec.FileGroups.length →
        checkJobError demoEnv demoOptions topRestic = none →
        ∃ r1, (Backup demoEnv demoOptions topWorld).2.restic = some r1 ∧
          r1.Status.BackupCount = topRestic.Status.BackupCount + 1) := by
  intro h
  obtain ⟨r1, h1, h2⟩ := h rfl rfl (fun _ _ => ⟨rfl, rfl⟩) rfl
  have h3 := (Backup_effects_run_ok demoEnv demoOptions topWorld topRestic rfl rfl rfl).2.2
  rw [h3] at h1
  injection h1 with h1
  rw [← h1, statusMutator_count] at h2
  have h4 : topRestic.Status.BackupCount = maxInt64 := rfl
  rw [h4, wrapInt64_top] at h2
  unfold minInt64 maxInt64 at h2
  omega

/-- C10, amended: in a run of `Backup` on an unpaused spec whose setup succeeds:
when all backup and retention calls and the check-job provisioning succeed,
`Backup` returns no error, the events emitted are one successful-backup Normal
event per file group in declaration order followed by one check-job-created
Normal event, none of them a Warning, and the status counter of the stored
resource is the fetched one incremented as a 64-bit integer: one more than
before when it was below the top value; when the backup of the first file group
fails, `Backup` returns an error, the only event emitted is one Warning with
reason failed-to-backup, the stored resource is as before, no status patch is
applied and no job creation call is made. -/
theorem Backup_scenarios (env : Env) (opt : Options) (w : World) (r : Restic)
    (h : setup env opt w = (some r, none)) (hp : r.Spec.Paused = false) :
    (allSucceed env r.Spec.FileGroups.length → checkJobError env opt r = none →
      (Backup env opt w).1 = none ∧
      (∃ job, env.createJob (checkJobOf env opt r) = .ok job ∧
        eventsOf (effectsSince w (Backup env opt w).2) =
          r.Spec.FileGroups.map (successfulBackupEvent env r) ++
            [checkJobCreatedEvent r job]) ∧
      warningsOf (eventsOf (effectsSince w (Backup env opt w).2)) = [] ∧
      w.restic = some r ∧
      (∃ r1, (Backup env opt w).2.restic = some r1 ∧
        r1.Status.BackupCount = wrapInt64 (r.Status.BackupCount + 1) ∧
        (minInt64 ≤ r.Status.BackupCount → r.Status.BackupCount < maxInt64 →
          r1.Status.BackupCount = r.Status.BackupCount + 1))) ∧
    (∀ fg rest e, r.Spec.FileGroups = fg :: rest → env.backupErr 0 = some e →
      (Backup env opt w).1 = some ("failed to run backup, reason: " ++ e) ∧
      eventsOf (effectsSince w (Backup env opt w).2) =
        [{ component := BackupEventComponent, ref := r.ObjectReference,
           type := .Warning, reason := .FailedToBackup,
           message := "Backup failed, reason: " ++ e }] ∧
      (Backup env opt w).2.restic = w.restic ∧
      patchesOf (effectsSince w (Backup env opt w).2) = [] ∧
      createJobCallsOf (effectsSince w (Backup env opt w).2) = [] ∧
      (Backup env opt w).2.jobs = w.jobs) := by
  constructor
  · intro hall hjob
    have he : groupError env 0 r.Spec.FileGroups = none :=
      groupError_of_allSucceed env 0 _ (fun j hj => by simpa using hall j hj)
    obtain ⟨h1, ⟨g, h2⟩, h3⟩ := Backup_effects_run_ok env opt w r h hp he
    have hstored : w.restic = some r :=
      getRestic_stored env opt w r (setup_fetched env opt w r (by rw [h])).2.2
    have hev : eventsOf (effectsSince w (Backup env opt w).2) =
        r.Spec.FileGroups.map (successfulBackupEvent env r) ++
          eventsOf (checkJobTrace env opt r) := by
      rw [h2, eventsOf_append, eventsOf_append, deferredTrace_events, List.append_nil,
        groupTrace_events_of_success env r 0 _ he]
    cases hc : env.createJob (checkJobOf env opt r) with
    | error e1 => simp [checkJobError, hc] at hjob
    | ok job =>
      have hr : rbacError env opt job = none := by simpa [checkJobError, hc] using hjob
      have hce : eventsOf (checkJobTrace env opt r) = [checkJobCreatedEvent r job] := by
        rw [checkJobTrace_events, hc]
        simp [hr]
      refine ⟨by rw [h1, hjob], ⟨job, rfl, by rw [hev, hce]⟩, ?_, hstored, ?_⟩
      · rw [hev, hce, warningsOf_append]
        simp [warningsOf, List.filter_eq_nil_iff, successfulBackupEvent, checkJobCreatedEvent]
      · refine ⟨_, h3, statusMutator_count _ _ _, ?_⟩
        intro hlo hhi
        rw [statusMutator_count, wrapInt64_succ _ hlo hhi]
  · intro fg rest e hgs hb
    have he : groupError env 0 r.Spec.FileGroups = some e := by
      rw [hgs]
      simp [groupError, hb]
    obtain ⟨h1, ⟨g, h2⟩, h3⟩ := Backup_effects_run_error env opt w r e h hp he
    have htrace : groupTrace env r 0 r.Spec.FileGroups =
        [.backup fg,
         .event { component := BackupEventComponent, ref := r.ObjectReference,
                  type := .Warning, reason := .FailedToBackup,
                  message := "Backup failed, reason: " ++ e }] := by
      rw [hgs]
      simp [groupTrace, hb]
    refine ⟨h1, ?_, h3, ?_, ?_, ?_⟩
    · rw [h2, eventsOf_append, deferredTrace_events, htrace]
      rfl
    · rw [h2, patchesOf_append, groupTrace_patches, deferredTrace_patches]
      simp
    · rw [h2, createJobCallsOf_append, groupTrace_createJobCalls, deferredTrace_createJobCalls]
      simp
    · rw [Backup_of_run_error env opt w r e h hp he]
      exact runResticBackup_jobs env opt r w

/-- C9, counterexample: idempotence of `EnsureOwnerReference` alone does not give
the claim.  With the idempotent function that reads the labels, the second run
after a first successful run changes the stored service account, and the service
account mutator `f` does not satisfy `f (f x) = f x`; with the idempotent
function that leaves the metadata as it is, the stored service account carries
no owner reference to the job. -/
theorem ensureCheckRBAC_idempotent_counterexample :
    ¬ (idempotentOwner labelEnv.ensureOwnerReference →
        (ensureCheckRBAC labelEnv demoJobReference demoWorld).1 = none →
        (ensureCheckRBAC labelEnv demoJobReference
            (ensureCheckRBAC labelEnv demoJobReference demoWorld).2).2.serviceAccounts
          = (ensureCheckRBAC labelEnv demoJobReference demoWorld).2.serviceAccounts) ∧
    ¬ (idempotentOwner labelEnv.ensureOwnerReference →
        ∀ sa, serviceAccountMutator labelEnv demoJobReference
                (serviceAccountMutator labelEnv demoJobReference sa)
              = serviceAccountMutator labelEnv demoJobReference sa) ∧
    ¬ (idempotentOwner keepEnv.ensureOwnerReference →
        (ensureCheckRBAC keepEnv demoJobReference demoWorld).1 = none →
        ∀ sa, (ensureCheckRBAC keepEnv demoJobReference demoWorld).2.getServiceAccount
                (checkMeta demoJobReference) = some sa →
          ownerCount demoJobReference sa.ObjectMeta = 1) := by
  have hlabel : idempotentOwner labelEnv.ensureOwnerReference := by
    intro m owner
    show labelOwnerReference (labelOwnerReference m owner) owner = labelOwnerReference m owner
    by_cases h : labelOf m "app" = some "stash"
    · have h2 : labelOf { m with OwnerReferences := [] } "app" = some "stash" := h
      simp [labelOwnerReference, h, h2]
    · have h2 : ¬ labelOf { m with OwnerReferences := [ownerReferenceTo owner] } "app"
          = some "stash" := h
      simp [labelOwnerReference, h, h2]
  have hkeep : idempotentOwner keepEnv.ensureOwnerReference := fun _ _ => rfl
  refine ⟨?_, ?_, ?_⟩
  · intro h
    have h1 := h hlabel rfl
    revert h1
    decide
  · intro h
    have h1 := h hlabel { ObjectMeta := checkMeta demoJobReference, Secrets := [] }
    revert h1
    decide
  · intro h
    have h1 := h hkeep rfl
      { ObjectMeta := { (checkMeta demoJobReference) with
                        Labels := some [("app", "stash")] }, Secrets := [] } rfl
    revert h1
    decide

/-- C9, amended: `ensureCheckRBAC` is idempotent, given that the external
`EnsureOwnerReference` is idempotent and rewrites the owner references only,
whatever the labels are.  After a first successful run a second run (whatever
its API calls answer) leaves the stored service accounts and role bindings as
they are, so none is added, and with the same answers it succeeds and leaves the
whole world as it is; the stored service account and role binding of the job's
name are named and namespaced as the job, carry the label app=stash and the
owner references `EnsureOwnerReference` leaves for the job (it maps their
metadata to itself), and the role binding has the sidecar cluster role as role
reference and the service account of that name as its single subject; and each
of the two mutators `f` satisfies `f (f x) = f x`. -/
theorem ensureCheckRBAC_idempotent (env : Env) (ref : ObjectReference) (w : World)
    (hc : OwnerReferenceContract env.ensureOwnerReference ref)
    (h1 : (ensureCheckRBAC env ref w).1 = none) :
    (∀ a b,
      (ensureCheckRBAC { env with serviceAccountErr := a, roleBindingErr := b } ref
          (ensureCheckRBAC env ref w).2).2.serviceAccounts
        = (ensureCheckRBAC env ref w).2.serviceAccounts ∧
      (ensureCheckRBAC { env with serviceAccountErr := a, roleBindingErr := b } ref
          (ensureCheckRBAC env ref w).2).2.roleBindings
        = (ensureCheckRBAC env ref w).2.roleBindings) ∧
    ensureCheckRBAC env ref (ensureCheckRBAC env ref w).2
      = (none, (ensureCheckRBAC env ref w).2) ∧
    (∃ sa, (ensureCheckRBAC env ref w).2.getServiceAccount (checkMeta ref) = some sa ∧
      sa.ObjectMeta.Name = ref.Name ∧ sa.ObjectMeta.Namespace = ref.Namespace ∧
      env.ensureOwnerReference sa.ObjectMeta ref = sa.ObjectMeta ∧
      labelOf sa.ObjectMeta "app" = some "stash") ∧
    (∃ rb, (ensureCheckRBAC env ref w).2.getRoleBinding (checkMeta ref) = some rb ∧
      rb.ObjectMeta.Name = ref.Name ∧ rb.ObjectMeta.Namespace = ref.Namespace ∧
      env.ensureOwnerReference rb.ObjectMeta ref = rb.ObjectMeta ∧
      labelOf rb.ObjectMeta "app" = some "stash" ∧
      rb.RoleRef = { APIGroup := rbacGroupName, Kind := "ClusterRole",
                     Name := env.sidecarClusterRole } ∧
      rb.Subjects = [{ Kind := "ServiceAccount", Name := ref.Name,
                       Namespace := ref.Namespace }]) ∧
    (∀ sa, serviceAccountMutator env ref (serviceAccountMutator env ref sa)
            = serviceAccountMutator env ref sa) ∧
    (∀ rb, roleBindingMutator env ref (checkMeta ref)
              (roleBindingMutator env ref (checkMeta ref) rb)
            = roleBindingMutator env ref (checkMeta ref) rb) := by
  obtain ⟨hs, hb⟩ := ensureCheckRBAC_errors_of_ok env ref w h1
  have hw := ensureCheckRBAC_of_ok env ref w hs hb
  have hsaIdem := createOrPatch_idem (fun sa : ServiceAccount => (checkMeta ref).isNamed sa.ObjectMeta)
    { ObjectMeta := checkMeta ref, Secrets := [] } (serviceAccountMutator env ref)
    (fun x hx => serviceAccountMutator_named env ref _ hc x hx)
    (serviceAccountMutator_named env ref _ hc _ (checkMeta_isNamed ref))
    (serviceAccountMutator_idem env ref hc) w.serviceAccounts
  have hrbIdem := createOrPatch_idem (fun rb : RoleBinding => (checkMeta ref).isNamed rb.ObjectMeta)
    { ObjectMeta := checkMeta ref, RoleRef := { APIGroup := "", Kind := "", Name := "" },
      Subjects := [] } (roleBindingMutator env ref (checkMeta ref))
    (fun x hx => roleBindingMutator_named env ref _ _ hc x hx)
    (roleBindingMutator_named env ref _ _ hc _ (checkMeta_isNamed ref))
    (roleBindingMutator_idem env ref _ hc) w.roleBindings
  refine ⟨?_, ?_, ?_, ?_, serviceAccountMutator_idem env ref hc,
    roleBindingMutator_idem env ref _ hc⟩
  · intro a b
    rw [hw]
    cases a with
    | some e => simp [ensureCheckRBAC, CreateOrPatchServiceAccount]
    | none =>
      cases b with
      | some e =>
        simp only [ensureCheckRBAC, CreateOrPatchServiceAccount, CreateOrPatchRoleBinding]
        simp only [serviceAccountMutator, roleBindingMutator] at hsaIdem ⊢
        exact ⟨hsaIdem, trivial⟩
      | none =>
        simp only [ensureCheckRBAC, CreateOrPatchServiceAccount, CreateOrPatchRoleBinding]
        simp only [serviceAccountMutator, roleBindingMutator] at hsaIdem hrbIdem ⊢
        exact ⟨hsaIdem, hrbIdem⟩
  · rw [hw, ensureCheckRBAC_of_ok env ref _ hs hb]
    simp only [hsaIdem, hrbIdem]
  · obtain ⟨x, hx⟩ := createOrPatch_find ServiceAccount
      (fun sa => (checkMeta ref).isNamed sa.ObjectMeta)
      { ObjectMeta := checkMeta ref, Secrets := [] } (serviceAccountMutator env ref)
      (fun x hx => serviceAccountMutator_named env ref _ hc x hx)
      (serviceAccountMutator_named env ref _ hc _ (checkMeta_isNamed ref)) w.serviceAccounts
    refine ⟨serviceAccountMutator env ref x, ?_, ?_⟩
    · rw [hw]
      exact hx
    · have hn := List.find?_some hx
      simp only [ObjectMeta.isNamed, checkMeta, decide_eq_true_eq] at hn
      exact ⟨hn.2, hn.1, ensure_setAppLabel_fixed env.ensureOwnerReference ref hc _,
        setAppLabel_label _⟩
  · obtain ⟨x, hx⟩ := createOrPatch_find RoleBinding
      (fun rb => (checkMeta ref).isNamed rb.ObjectMeta)
      { ObjectMeta := checkMeta ref, RoleRef := { APIGroup := "", Kind := "", Name := "" },
        Subjects := [] } (roleBindingMutator env ref (checkMeta ref))
      (fun x hx => roleBindingMutator_named env ref _ _ hc x hx)
      (roleBindingMutator_named env ref _ _ hc _ (checkMeta_isNamed ref)) w.roleBindings
    refine ⟨roleBindingMutator env ref (checkMeta ref) x, ?_, ?_⟩
    · rw [hw]
      exact hx
    · have hn := List.find?_some hx
      simp only [ObjectMeta.isNamed, checkMeta, decide_eq_true_eq] at hn
      exact ⟨hn.2, hn.1, ensure_setAppLabel_fixed env.ensureOwnerReference ref hc _,
        setAppLabel_label _, rfl, rfl⟩

/-- Witness of C9 (amended): the access-control step of the concrete run, on an empty
cluster. -/
theorem ensureCheckRBAC_idempotent_witness :
    OwnerReferenceContract demoEnv.ensureOwnerReference demoJobReference ∧
    (ensureCheckRBAC demoEnv demoJobReference demoWorld).1 = none ∧
    ensureCheckRBAC demoEnv demoJobReference
        (ensureCheckRBAC demoEnv demoJobReference demoWorld).2
      = (none, (ensureCheckRBAC demoEnv demoJobReference demoWorld).2) :=
  ⟨demoEnsureOwnerReference_contract demoJobReference, rfl,
   (ensureCheckRBAC_idempotent demoEnv demoJobReference demoWorld
      (demoEnsureOwnerReference_contract demoJobReference) rfl).2.1⟩

/-- Witness of C10 (amended): the two scenarios on the file groups `/data` and
`/logs`, on a resource with four earlier backups. -/
theorem Backup_scenarios_witness :
    setup demoEnv demoOptions demoWorld = (some demoRestic, none) ∧
    demoRestic.Spec.Paused = false ∧
    demoRestic.Spec.FileGroups.map (fun fg => fg.Path) = ["/data", "/logs"] ∧
    ((Backup demoEnv demoOptions demoWorld).1 = none ∧
      warningsOf (eventsOf (effectsSince demoWorld (Backup demoEnv demoOptions demoWorld).2))
        = [] ∧
      ∃ r1, (Backup demoEnv demoOptions demoWorld).2.restic = some r1 ∧
        r1.Status.BackupCount = demoRestic.Status.BackupCount + 1) ∧
    ((Backup failingBackupEnv demoOptions demoWorld).1
        = some ("failed to run backup, reason: " ++ "exit status 1") ∧
      (Backup failingBackupEnv demoOptions demoWorld).2.restic = demoWorld.restic ∧
      createJobCallsOf
        (effectsSince demoWorld (Backup failingBackupEnv demoOptions demoWorld).2) = []) := by
  have hok := (Backup_scenarios demoEnv demoOptions demoWorld demoRestic rfl rfl).1
    (fun _ _ => ⟨rfl, rfl⟩) rfl
  have hfail := (Backup_scenarios failingBackupEnv demoOptions demoWorld demoRestic rfl rfl).2
    _ _ "exit status 1" rfl rfl
  obtain ⟨r1, hr1, _, hcount⟩ := hok.2.2.2.2
  exact ⟨rfl, rfl, rfl,
    ⟨hok.1, hok.2.2.1, r1, hr1, hcount (by decide) (by decide)⟩,
    ⟨hfail.1, hfail.2.2.1, hfail.2.2.2.2.1⟩⟩

end Stash
